import Mathlib

/-!
Verification development for the itinerary backend's LLM-output
reconciliation pipeline (models.py, services/openai_service.py,
services/budget_annotator.py, services/currency_service.py,
services/calendar_service.py).

Shallow embedding conventions:
* Python `decimal.Decimal` values are embedded as the type `Dec` below, an
  integer coefficient with a decimal-place count.  Addition and
  multiplication on `Dec` are exact, matching `decimal` arithmetic for the
  magnitudes this program handles (the 28-significant-digit context of
  `decimal` only rounds at scales this program never reaches).
  `quantize(Decimal("0.01"), ROUND_HALF_UP)` is `Dec.quant2HalfUp`;
  `quantize(Decimal("0"))` with the default `ROUND_HALF_EVEN` is modelled on
  exact rationals by `rndHalfEven`.
* Python `datetime.date` is the structure `Date`; `date.fromisoformat` /
  `date.isoformat` are `parseDate` / `Date.iso` (the canonical
  `YYYY-MM-DD` form, the only form this program produces); `date + timedelta(days=k)`
  is `Date.addDays` via the standard civil-calendar rata-die conversion.
  Python restricts years to 1..9999, captured by `Date.okRange`.
* Decoded JSON is the inductive `JVal`; Python dicts are association lists
  with first-occurrence lookup and in-place update, matching dict
  semantics (decoded JSON never has duplicate keys).  JSON numbers carry
  their decimal literal (`Dec`), matching `json.loads` + `str` round-trips
  at the magnitudes used here.
* Functions that can raise in Python return `Except String`/`Option`; the
  error string names the Python exception.
-/

namespace ItinSpec

/-! ## Exact decimal numbers (embedding of decimal.Decimal) -/

structure Dec where
  n : Int
  e : Nat
deriving Repr, DecidableEq

def Dec.val (d : Dec) : ℚ := (d.n : ℚ) / (10 : ℚ) ^ d.e

def Dec.ofInt (k : Int) : Dec := ⟨k, 0⟩

def Dec.add (a b : Dec) : Dec :=
  let E := max a.e b.e
  ⟨a.n * 10 ^ (E - a.e) + b.n * 10 ^ (E - b.e), E⟩

def Dec.mul (a b : Dec) : Dec := ⟨a.n * b.n, a.e + b.e⟩

def Dec.neg (a : Dec) : Dec := ⟨-a.n, a.e⟩

def Dec.sub (a b : Dec) : Dec := a.add b.neg

/-- Python `decimal` comparison `d >= 0`. -/
def Dec.nonneg (d : Dec) : Bool := decide (0 ≤ d.n)

/-- Python `decimal` comparison `a <= b` (numeric comparison). -/
def Dec.le (a b : Dec) : Bool := (b.sub a).nonneg

/-- Integer division rounding to nearest with ties away from zero
(`ROUND_HALF_UP` of decimal), for a positive divisor. -/
def halfUpDiv (n k : Int) : Int :=
  if 0 ≤ n then Int.ediv (2 * n + k) (2 * k)
  else -(Int.ediv (2 * (-n) + k) (2 * k))

/-- `x.quantize(Decimal("0.01"), rounding=ROUND_HALF_UP)`. -/
def Dec.quant2HalfUp (d : Dec) : Dec :=
  if d.e ≤ 2 then ⟨d.n * 10 ^ (2 - d.e), 2⟩
  else ⟨halfUpDiv d.n (10 ^ (d.e - 2)), 2⟩

/-- Round an exact rational to the nearest integer, ties to even
(`ROUND_HALF_EVEN`, the default decimal context rounding, and Python
float `round`). -/
def rndHalfEven (q : ℚ) : Int :=
  let f := ⌊q⌋
  if q - f < 1 / 2 then f
  else if (1 : ℚ) / 2 < q - f then f + 1
  else if 2 ∣ f then f else f + 1

def natPadded (w : Nat) (m : Nat) : List Char :=
  let ds := (Nat.repr m).data
  List.replicate (w - ds.length) '0' ++ ds

def intRepr (n : Int) : String :=
  if n < 0 then "-" ++ Nat.repr n.natAbs else Nat.repr n.natAbs

/-- `str()` of a decimal whose exponent is `-e` (all decimals this program
prints have a non-positive exponent, so scientific notation never
appears). -/
def Dec.render (d : Dec) : String :=
  if d.e = 0 then intRepr d.n
  else
    let sign := if d.n < 0 then "-" else ""
    let a := d.n.natAbs
    sign ++ Nat.repr (a / 10 ^ d.e) ++ "." ++ String.mk (natPadded d.e (a % 10 ^ d.e))

/-! ## Calendar dates (embedding of datetime.date) -/

structure Date where
  year : Int
  month : Nat
  day : Nat
deriving Repr, DecidableEq

def isLeap (y : Int) : Bool := y % 4 = 0 ∧ (y % 100 ≠ 0 ∨ y % 400 = 0)

def monthLen (y : Int) (m : Nat) : Nat :=
  if m = 2 then (if isLeap y then 29 else 28)
  else if m = 4 ∨ m = 6 ∨ m = 9 ∨ m = 11 then 30 else 31

/-- A value `datetime.date` can actually hold: real calendar day, year in
Python's 1..9999 range. -/
def Date.okRange (d : Date) : Bool :=
  decide (1 ≤ d.year) ∧ decide (d.year ≤ 9999) ∧
  decide (1 ≤ d.month) ∧ decide (d.month ≤ 12) ∧
  decide (1 ≤ d.day) ∧ decide (d.day ≤ monthLen d.year d.month)

/-- Days since 1970-01-01 (civil-from-days, Hinnant's algorithm, the
standard proleptic Gregorian rata die). -/
def Date.toRD (dt : Date) : Int :=
  let m : Int := dt.month
  let d : Int := dt.day
  let y : Int := if m ≤ 2 then dt.year - 1 else dt.year
  let era : Int := Int.fdiv y 400
  let yoe : Int := y - era * 400
  let mp : Int := (m + 9) % 12
  let doy : Int := Int.ediv (153 * mp + 2) 5 + d - 1
  let doe : Int := yoe * 365 + Int.ediv yoe 4 - Int.ediv yoe 100 + doy
  era * 146097 + doe - 719468

/-- Inverse of `Date.toRD` (days-from-civil). -/
def Date.ofRD (z0 : Int) : Date :=
  let z := z0 + 719468
  let era : Int := Int.fdiv z 146097
  let doe : Int := z - era * 146097
  let yoe : Int := Int.ediv (doe - Int.ediv doe 1460 + Int.ediv doe 36524 - Int.ediv doe 146096) 365
  let y : Int := yoe + era * 400
  let doy : Int := doe - (365 * yoe + Int.ediv yoe 4 - Int.ediv yoe 100)
  let mp : Int := Int.ediv (5 * doy + 2) 153
  let d : Int := doy - Int.ediv (153 * mp + 2) 5 + 1
  let m : Int := if mp < 10 then mp + 3 else mp - 9
  ⟨(if m ≤ 2 then y + 1 else y), m.toNat, d.toNat⟩

/-- `d + timedelta(days=k)`. -/
def Date.addDays (dt : Date) (k : Int) : Date := Date.ofRD (dt.toRD + k)

/-- `(a - b).days`. -/
def dateDiff (a b : Date) : Int := a.toRD - b.toRD

def digCh (k : Nat) : Char := Char.ofNat (48 + k)

/-- Fixed-width `%02d` (months/days never exceed two digits). -/
def pad2 (m : Nat) : List Char := [digCh (m / 10), digCh (m % 10)]

/-- Fixed-width `%04d` (Python years never exceed four digits). -/
def pad4 (m : Nat) : List Char :=
  [digCh (m / 1000), digCh (m / 100 % 10), digCh (m / 10 % 10), digCh (m % 10)]

/-- `date.isoformat()`: zero-padded `YYYY-MM-DD`. -/
def Date.iso (dt : Date) : String :=
  String.mk (pad4 dt.year.toNat ++ '-' :: pad2 dt.month ++ '-' :: pad2 dt.day)

def charDigit (c : Char) : Option Nat :=
  if 48 ≤ c.toNat ∧ c.toNat ≤ 57 then some (c.toNat - 48) else none

def parseDateChars : List Char → Option Date
  | [a, b, c, d, h1, e, f, h2, g, h] =>
    if h1 = '-' ∧ h2 = '-' then
      match charDigit a, charDigit b, charDigit c, charDigit d,
            charDigit e, charDigit f, charDigit g, charDigit h with
      | some a, some b, some c, some d, some e, some f, some g, some h =>
        let dt : Date := ⟨((a * 10 + b) * 10 + c) * 10 + d, e * 10 + f, g * 10 + h⟩
        if dt.okRange then some dt else none
      | _, _, _, _, _, _, _, _ => none
    else none
  | _ => none

/-- `datetime.date.fromisoformat` on the canonical `YYYY-MM-DD` form (the
only form this program produces or receives for dates); pydantic date
validation accepts exactly the real calendar days. -/
def parseDate (s : String) : Option Date := parseDateChars s.data

/-- `strftime("%B")`. -/
def monthName (m : Nat) : String :=
  match m with
  | 1 => "January" | 2 => "February" | 3 => "March" | 4 => "April"
  | 5 => "May" | 6 => "June" | 7 => "July" | 8 => "August"
  | 9 => "September" | 10 => "October" | 11 => "November" | 12 => "December"
  | _ => ""

/-! ## Decoded JSON values -/

inductive JVal where
  | null : JVal
  | bool : Bool → JVal
  | num : Dec → JVal
  | str : String → JVal
  | arr : List JVal → JVal
  | obj : List (String × JVal) → JVal
deriving Repr

/-- Python truthiness of a decoded JSON value. -/
def JVal.truthy : JVal → Bool
  | .null => false
  | .bool b => b
  | .num d => decide (d.n ≠ 0)
  | .str s => decide (s ≠ "")
  | .arr xs => !xs.isEmpty
  | .obj fs => !fs.isEmpty

/-- Dict lookup `d.get(k)` / `d[k]` (first occurrence; decoded-JSON dicts
never repeat keys). -/
def lookupF (k : String) : List (String × JVal) → Option JVal
  | [] => none
  | (k2, v) :: fs => if k2 = k then some v else lookupF k fs

/-- Dict update `d[k] = v`: replace in place if present, else append. -/
def setF (k : String) (v : JVal) : List (String × JVal) → List (String × JVal)
  | [] => [(k, v)]
  | (k2, w) :: fs => if k2 = k then (k2, v) :: fs else (k2, w) :: setF k v fs

def hasKey (k : String) (fs : List (String × JVal)) : Bool := (lookupF k fs).isSome

/-- `d.pop(k, None)`. -/
def removeF (k : String) : List (String × JVal) → List (String × JVal)
  | [] => []
  | (k2, w) :: fs => if k2 = k then fs else (k2, w) :: removeF k fs

/-- `d.get(k) or default` as used on dict fields all over the source. -/
def getOr (fs : List (String × JVal)) (k : String) (dflt : JVal) : JVal :=
  match lookupF k fs with
  | some v => if v.truthy then v else dflt
  | none => dflt

/-- `d.setdefault(k, v)`. -/
def setDefaultF (k : String) (v : JVal) (fs : List (String × JVal)) : List (String × JVal) :=
  if hasKey k fs then fs else fs ++ [(k, v)]

/-! ## ISO round trip -/

theorem charDigit_digCh (k : Nat) (hk : k ≤ 9) : charDigit (digCh k) = some k := by
  interval_cases k <;> decide

theorem parse_iso (d : Date) (h : d.okRange = true) : parseDate d.iso = some d := by
  obtain ⟨y, m, dd⟩ := d
  simp only [Date.okRange, monthLen, Bool.and_eq_true, decide_eq_true_eq] at h
  have hy1 : 1 ≤ y := h.1
  have hy2 : y ≤ 9999 := h.2.1
  have hm1 : 1 ≤ m := h.2.2.1
  have hm2 : m ≤ 12 := h.2.2.2.1
  have hd1 : 1 ≤ dd := h.2.2.2.2.1
  have hd2 : dd ≤ 31 := by
    have h6 := h.2.2.2.2.2
    split at h6
    · split at h6 <;> omega
    · split at h6 <;> omega
  have hyn : (y.toNat : Int) = y := Int.toNat_of_nonneg (by omega)
  have hn2 : y.toNat ≤ 9999 := by omega
  have hdm : ∀ l : List Char, (String.mk l).data = l := fun _ => rfl
  simp only [parseDate, Date.iso, pad4, pad2, hdm, List.cons_append, List.nil_append]
  simp only [parseDateChars]
  rw [charDigit_digCh (y.toNat / 1000) (by omega), charDigit_digCh (y.toNat / 100 % 10) (by omega),
    charDigit_digCh (y.toNat / 10 % 10) (by omega), charDigit_digCh (y.toNat % 10) (by omega),
    charDigit_digCh (m / 10) (by omega), charDigit_digCh (m % 10) (by omega),
    charDigit_digCh (dd / 10) (by omega), charDigit_digCh (dd % 10) (by omega)]
  simp only [and_self, if_true, reduceIte]
  have e1 : ((((y.toNat / 1000 : Nat) : Int) * 10 + ((y.toNat / 100 % 10 : Nat) : Int)) * 10
      + ((y.toNat / 10 % 10 : Nat) : Int)) * 10 + ((y.toNat % 10 : Nat) : Int) = y := by omega
  have e2 : m / 10 * 10 + m % 10 = m := by omega
  have e3 : dd / 10 * 10 + dd % 10 = dd := by omega
  rw [e1, e2, e3]
  simp only [Date.okRange, monthLen, Bool.and_eq_true, decide_eq_true_eq] at h ⊢
  simp [h.1, h.2.1, h.2.2.1, h.2.2.2.1, h.2.2.2.2.1, h.2.2.2.2.2]

/-! ## Schema transformer
(`_is_nullable`, `_make_nullable`, `_transform_object`, `_walk_and_transform`
in services/openai_service.py).  Paths on which Python raises (`TypeError` /
`AttributeError` on malformed schema nodes) return `none`.  The walker is
written with explicit fuel: Python terminates because its identity-based
visited set bounds the number of visits, and every theorem below quantifies
over the fuel, so no behaviour is lost. -/

/-- `x.get("type") == lit` for a dict. -/
def typeIs (lit : String) (fs : List (String × JVal)) : Bool :=
  match lookupF "type" fs with
  | some (.str s) => s = lit
  | _ => false

/-- Python string membership `x == e` for an element of a decoded-JSON
list when `x` is a `str` (equality with a non-str is `False`). -/
def memberStr (x : String) (xs : List JVal) : Bool :=
  xs.any fun v => match v with
    | .str s => s = x
    | _ => false

def isPre : List Char → List Char → Bool
  | [], _ => true
  | _ :: _, [] => false
  | a :: as, b :: bs => a = b && isPre as bs

/-- `x.get("type") == "object" and "properties" in x`. -/
def isObjNode (fs : List (String × JVal)) : Bool :=
  typeIs "object" fs && hasKey "properties" fs

/-- Property names of an output node's properties dict (empty when the
value is not a dict). -/
def propsKeysOut (fs : List (String × JVal)) : List String :=
  match lookupF "properties" fs with
  | some (.obj ps) => ps.map Prod.fst
  | _ => []

/-- `set(required) == set(properties.keys())`. -/
def setEqStr (rs : List JVal) (ks : List String) : Bool :=
  (rs.all fun r => match r with
    | .str s => ks.contains s
    | _ => false) &&
  (ks.all fun k => memberStr k rs)

/-- The claim's per-node invariant: required-set equals the property-name
set and `additionalProperties == false`. -/
def strictReqOk (fs : List (String × JVal)) : Bool :=
  (match lookupF "required" fs with
   | some (.arr rs) => setEqStr rs (propsKeysOut fs)
   | _ => false) &&
  (match lookupF "additionalProperties" fs with
   | some (.bool b) => !b
   | _ => false)

mutual

/-- Every object node in the tree satisfies `strictReqOk`. -/
def strictOkV : JVal → Bool
  | .obj fs => (if isObjNode fs then strictReqOk fs else true) && strictOkF fs
  | .arr xs => strictOkL xs
  | _ => true

def strictOkL : List JVal → Bool
  | [] => true
  | x :: xs => strictOkV x && strictOkL xs

def strictOkF : List (String × JVal) → Bool
  | [] => true
  | (_, v) :: fs => strictOkV v && strictOkF fs

end

/-- No object node may have a properties dict that itself carries a
property named `"type"` whose schema is the literal string `"object"`
together with a property named `"properties"` — the walker would treat
that properties dict as an object node of its own and inject
`required` / `additionalProperties` keys into it. -/
def benignProps (fs : List (String × JVal)) : Bool :=
  match lookupF "properties" fs with
  | some (.obj ps) =>
    !((match lookupF "type" ps with
       | some (.str s) => s = "object"
       | _ => false) && hasKey "properties" ps)
  | _ => true

mutual

def benignV : JVal → Bool
  | .obj fs => (if isObjNode fs then benignProps fs else true) && benignF fs
  | .arr xs => benignL xs
  | _ => true

def benignL : List JVal → Bool
  | [] => true
  | x :: xs => benignV x && benignL xs

def benignF : List (String × JVal) → Bool
  | [] => true
  | (_, v) :: fs => benignV v && benignF fs

end

/-! ### Dictionary and walker infrastructure lemmas -/

theorem lookupF_setF_same (k : String) (v : JVal) (fs : List (String × JVal)) :
    lookupF k (setF k v fs) = some v := by
  induction fs with
  | nil => simp [setF, lookupF]
  | cons a fs ih =>
    obtain ⟨k2, w⟩ := a
    by_cases h : k2 = k <;> simp [setF, lookupF, h, ih]

theorem lookupF_setF_other (k k2 : String) (v : JVal) (fs : List (String × JVal))
    (h : k2 ≠ k) : lookupF k2 (setF k v fs) = lookupF k2 fs := by
  have h2 : ¬(k = k2) := fun hh => h hh.symm
  induction fs with
  | nil => simp [setF, lookupF, h2]
  | cons a fs ih =>
    obtain ⟨k3, w⟩ := a
    by_cases h3 : k3 = k
    · subst h3
      simp [setF, lookupF, h2]
    · by_cases h4 : k3 = k2 <;> simp [setF, lookupF, h, h3, h4, ih]

theorem lookupF_mem (k : String) :
    ∀ fs (v : JVal), lookupF k fs = some v → (k, v) ∈ fs := by
  intro fs
  induction fs with
  | nil => intro v h; simp [lookupF] at h
  | cons a fs ih =>
    intro v h
    obtain ⟨k1, v1⟩ := a
    by_cases he : k1 = k
    · subst he
      simp only [lookupF, eq_self_iff_true, if_true, Option.some_inj] at h
      subst h
      exact List.mem_cons_self _ _
    · simp only [lookupF, if_neg he] at h
      exact List.mem_cons_of_mem _ (ih v h)

theorem benignF_iff (fs : List (String × JVal)) :
    benignF fs = true ↔ ∀ kv ∈ fs, benignV kv.2 = true := by
  induction fs with
  | nil => simp [benignF]
  | cons a fs ih =>
    obtain ⟨k, v⟩ := a
    simp [benignF, ih]

theorem benignF_lookup (fs : List (String × JVal)) (k : String) (v : JVal)
    (hb : benignF fs = true) (h : lookupF k fs = some v) : benignV v = true :=
  (benignF_iff fs).1 hb (k, v) (lookupF_mem k fs v h)

theorem strictOkL_iff (xs : List JVal) :
    strictOkL xs = true ↔ ∀ x ∈ xs, strictOkV x = true := by
  induction xs with
  | nil => simp [strictOkL]
  | cons x xs ih => simp [strictOkL, ih]

theorem strictOkF_iff (fs : List (String × JVal)) :
    strictOkF fs = true ↔ ∀ kv ∈ fs, strictOkV kv.2 = true := by
  induction fs with
  | nil => simp [strictOkF]
  | cons a fs ih =>
    obtain ⟨k, v⟩ := a
    simp [strictOkF, ih]

/-- The allow-set `{"date", "date-time", "email", "uuid"}`. -/
def fmtAllowed (s : String) : Bool :=
  s = "date" ∨ s = "date-time" ∨ s = "email" ∨ s = "uuid"

/-- A dict whose "format" entry, if any, holds a non-string or an
allowed format string — the scrub pops nothing from such a dict. -/
def fmtOkD (fs : List (String × JVal)) : Bool :=
  match lookupF "format" fs with
  | some (.str s) => fmtAllowed s
  | _ => true

mutual

/-- Every dict of the tree satisfies `fmtOkD` (in particular, every
declared property literally named "format" carries a dict schema or an
allowed format string, as the program's own pydantic schema does). -/
def fmtOkV : JVal → Bool
  | .obj fs => fmtOkD fs && fmtOkF fs
  | .arr xs => fmtOkL xs
  | _ => true

def fmtOkL : List JVal → Bool
  | [] => true
  | x :: xs => fmtOkV x && fmtOkL xs

def fmtOkF : List (String × JVal) → Bool
  | [] => true
  | (_, v) :: fs => fmtOkV v && fmtOkF fs

end

structure Tm where
  h : Nat
  m : Nat
  s : Nat
deriving Repr, DecidableEq

def Tm.toSec (t : Tm) : Nat := t.h * 3600 + t.m * 60 + t.s

def parseTimeChars : List Char → Option Tm
  | [a, b, c1, c, d] =>
    if c1 = ':' then
      match charDigit a, charDigit b, charDigit c, charDigit d with
      | some a, some b, some c, some d =>
        let hh := a * 10 + b
        let mm := c * 10 + d
        if hh ≤ 23 ∧ mm ≤ 59 then some ⟨hh, mm, 0⟩ else none
      | _, _, _, _ => none
    else none
  | [a, b, c1, c, d, c2, e, f] =>
    if c1 = ':' ∧ c2 = ':' then
      match charDigit a, charDigit b, charDigit c, charDigit d,
            charDigit e, charDigit f with
      | some a, some b, some c, some d, some e, some f =>
        let hh := a * 10 + b
        let mm := c * 10 + d
        let ss := e * 10 + f
        if hh ≤ 23 ∧ mm ≤ 59 ∧ ss ≤ 59 then some ⟨hh, mm, ss⟩ else none
      | _, _, _, _, _, _ => none
    else none
  | _ => none

/-- pydantic `time` parsing on the `HH:MM` / `HH:MM:SS` forms this program
produces. -/
def parseTime (s : String) : Option Tm := parseTimeChars s.data

structure MoneyEstimate where
  currency : String
  amount_min : Option Dec
  amount_max : Option Dec
  notes : Option String
deriving Repr

structure BookingInfo where
  required : Bool
  cost : Option MoneyEstimate
deriving Repr

structure Activity where
  title : String
  category : String
  start_time : Option Tm
  end_time : Option Tm
  description : Option String
  booking : Option BookingInfo
  estimated_cost : Option MoneyEstimate
  tags : List String
  tips : List String
deriving Repr

structure WeatherSummary where
  summary : Option String
  high_c : Option Dec
  low_c : Option Dec
  precip_chance : Option Dec
deriving Repr

structure DayPlan where
  day_index : Int
  date : Date
  summary : Option String
  weather : Option WeatherSummary
  activities : List Activity
  notes : List String
deriving Repr

structure Meta where
  schema_version : String
  generated_at_iso : Option String
  generator : String
deriving Repr

structure ItineraryResponse where
  destination : String
  start_date : Date
  end_date : Date
  total_days : Int
  timezone : Option String
  currency : String
  travelers_count : Option Int
  interests : List String
  daily_plan : List DayPlan
  meta : Meta
deriving Repr

def allKeysIn (fs : List (String × JVal)) (allowed : List String) : Bool :=
  fs.all fun kv => allowed.contains kv.1

/-- An optional string field (`Optional[str]`). -/
def vOptStr (fs : List (String × JVal)) (k : String) : Except String (Option String) :=
  match lookupF k fs with
  | none => .ok none
  | some .null => .ok none
  | some (.str s) => .ok (some s)
  | some _ => .error "type_error.str"

/-- A required string field. -/
def vStr (fs : List (String × JVal)) (k : String) : Except String String :=
  match lookupF k fs with
  | some (.str s) => .ok s
  | _ => .error "type_error.str"

def Dec.isInt (d : Dec) : Bool := decide (d.n % (10 : Int) ^ d.e = 0)

def Dec.toInt (d : Dec) : Int := Int.ediv d.n ((10 : Int) ^ d.e)

/-- An optional non-negative number (`Optional[confloat(ge=0)]`). -/
def vOptNonnegNum (fs : List (String × JVal)) (k : String) : Except String (Option Dec) :=
  match lookupF k fs with
  | none => .ok none
  | some .null => .ok none
  | some (.num d) => if d.nonneg then .ok (some d) else .error "greater_than_equal"
  | some _ => .error "type_error.float"

/-- An optional time field parsed from a string. -/
def vOptTime (fs : List (String × JVal)) (k : String) : Except String (Option Tm) :=
  match lookupF k fs with
  | none => .ok none
  | some .null => .ok none
  | some (.str s) =>
    match parseTime s with
    | some t => .ok (some t)
    | none => .error "time_parsing"
  | some _ => .error "time_type"

/-- A list-of-strings field with the `none → []` pre-validator. -/
def vStrListD (fs : List (String × JVal)) (k : String) : Except String (List String) :=
  match lookupF k fs with
  | none => .ok []
  | some .null => .ok []
  | some (.arr xs) =>
    xs.foldr (fun x acc => do
      let rest ← acc
      match x with
      | .str s => .ok (s :: rest)
      | _ => .error "type_error.str") (.ok [])
  | some _ => .error "type_error.list"

def moneyKeys : List String := ["currency", "amount_min", "amount_max", "notes"]

def validateMoney (v : JVal) : Except String MoneyEstimate :=
  match v with
  | .obj fs => do
    if !allKeysIn fs moneyKeys then .error "extra_forbidden" else
    let currency ← match lookupF "currency" fs with
      | none => .ok "USD"
      | some (.str s) => .ok s
      | some _ => .error "type_error.str"
    let amin ← vOptNonnegNum fs "amount_min"
    let amax ← vOptNonnegNum fs "amount_max"
    let notes ← vOptStr fs "notes"
    .ok ⟨currency, amin, amax, notes⟩
  | _ => .error "model_type"

/-- `Activity._coerce_cost_shape` (mode="before"): `{"amount": X}` is turned
into the canonical min/max shape. -/
def coerceCostShape (v : JVal) : JVal :=
  match v with
  | .obj fs =>
    if hasKey "amount" fs then
      let amt := match lookupF "amount" fs with
        | some a => a
        | none => .null
      .obj [("currency", getOr fs "currency" (.str "USD")),
            ("amount_min", amt), ("amount_max", amt),
            ("notes", match lookupF "notes" fs with
                      | some w => w
                      | none => .null)]
    else v
  | _ => v

def activityCategories : List String :=
  ["sightseeing", "museum", "landmark", "food", "coffee", "bar",
   "nightlife", "shopping", "nature", "beach", "hike", "experience",
   "transport", "hotel", "break"]

def activityKeys : List String :=
  ["title", "category", "start_time", "end_time", "description", "booking",
   "estimated_cost", "cost", "tags", "tips"]

def validateBooking (v : JVal) : Except String BookingInfo :=
  match v with
  | .obj fs => do
    if !allKeysIn fs ["required", "cost"] then .error "extra_forbidden" else
    let req ← match lookupF "required" fs with
      | none => .ok false
      | some (.bool b) => .ok b
      | some _ => .error "type_error.bool"
    let cost ← match lookupF "cost" fs with
      | none => .ok none
      | some .null => .ok none
      | some w => do .ok (some (← validateMoney w))
    .ok ⟨req, cost⟩
  | _ => .error "model_type"

/-- Field-level validation of an Activity (everything before the
`_normalize_time_order` model validator). -/
def validateActivityFields (v : JVal) : Except String Activity :=
  match v with
  | .obj fs => do
    if !allKeysIn fs activityKeys then .error "extra_forbidden" else
    let title ← vStr fs "title"
    let category ← match lookupF "category" fs with
      | none => .ok "sightseeing"
      | some (.str s) =>
        if activityCategories.contains s then .ok s else .error "literal_error"
      | some _ => .error "literal_error"
    let st ← vOptTime fs "start_time"
    let et ← vOptTime fs "end_time"
    let descr ← vOptStr fs "description"
    let booking ← match lookupF "booking" fs with
      | none => .ok none
      | some .null => .ok none
      | some w => do .ok (some (← validateBooking w))
    -- validation_alias AliasChoices("estimated_cost", "cost")
    let rawCost := match lookupF "estimated_cost" fs with
      | some w => some w
      | none => lookupF "cost" fs
    let cost ← match rawCost with
      | none => .ok none
      | some .null => .ok none
      | some w => do .ok (some (← validateMoney (coerceCostShape w)))
    let tags ← vStrListD fs "tags"
    let tips ← vStrListD fs "tips"
    .ok ⟨title, category, st, et, descr, booking, cost, tags, tips⟩
  | _ => .error "model_type"

def midnightTip : String := "Ends after midnight; times are approximate."

/-- `Activity._normalize_time_order` (mode="after"): an overnight span is
reinterpreted as crossing midnight.  `datetime.time` values are always
truthy in Python 3.5+, so presence is the only check. -/
def normTimeOrder (a : Activity) : Activity :=
  match a.start_time, a.end_time with
  | some t1, some t2 =>
    if t2.toSec ≤ t1.toSec then
      { a with end_time := none, tips := a.tips ++ [midnightTip] }
    else a
  | _, _ => a

def validateActivity (v : JVal) : Except String Activity := do
  .ok (normTimeOrder (← validateActivityFields v))

def weatherKeys : List String := ["summary", "high_c", "low_c", "precip_chance"]

def Dec.inRange (lo hi : Int) (d : Dec) : Bool :=
  ((Dec.ofInt lo).le d) && (d.le (Dec.ofInt hi))

def validateWeather (v : JVal) : Except String WeatherSummary :=
  match v with
  | .obj fs => do
    if !allKeysIn fs weatherKeys then .error "extra_forbidden" else
    let summary ← vOptStr fs "summary"
    let hi ← match lookupF "high_c" fs with
      | none => .ok none
      | some .null => .ok none
      | some (.num d) =>
        if Dec.inRange (-60) 60 d then .ok (some d) else .error "range"
      | some _ => .error "type_error.float"
    let lo ← match lookupF "low_c" fs with
      | none => .ok none
      | some .null => .ok none
      | some (.num d) =>
        if Dec.inRange (-60) 60 d then .ok (some d) else .error "range"
      | some _ => .error "type_error.float"
    let pc ← match lookupF "precip_chance" fs with
      | none => .ok none
      | some .null => .ok none
      | some (.num d) =>
        if Dec.inRange 0 1 d then .ok (some d) else .error "range"
      | some _ => .error "type_error.float"
    .ok ⟨summary, hi, lo, pc⟩
  | _ => .error "model_type"

def dayPlanKeys : List String :=
  ["day_index", "date", "summary", "weather", "activities", "notes"]

def mapExcept (f : JVal → Except String α) : List JVal → Except String (List α)
  | [] => .ok []
  | x :: xs => do
    let y ← f x
    let ys ← mapExcept f xs
    .ok (y :: ys)

def vDate (fs : List (String × JVal)) (k : String) : Except String Date :=
  match lookupF k fs with
  | some (.str s) =>
    match parseDate s with
    | some d => .ok d
    | none => .error "date_parsing"
  | _ => .error "date_type"

def validateDayPlan (v : JVal) : Except String DayPlan :=
  match v with
  | .obj fs => do
    if !allKeysIn fs dayPlanKeys then .error "extra_forbidden" else
    let di ← match lookupF "day_index" fs with
      | some (.num d) =>
        if d.isInt then
          if 1 ≤ d.toInt then .ok d.toInt else .error "greater_than_equal"
        else .error "int_parsing"
      | _ => .error "int_type"
    let date ← vDate fs "date"
    let summary ← vOptStr fs "summary"
    let weather ← match lookupF "weather" fs with
      | none => .ok none
      | some .null => .ok none
      | some w => do .ok (some (← validateWeather w))
    -- activities / notes have the `none → []` pre-validator
    let acts ← match lookupF "activities" fs with
      | none => .ok []
      | some .null => .ok []
      | some (.arr xs) => mapExcept validateActivity xs
      | some _ => .error "list_type"
    let notes ← vStrListD fs "notes"
    .ok ⟨di, date, summary, weather, acts, notes⟩
  | _ => .error "model_type"

def metaKeys : List String := ["schema_version", "generated_at_iso", "generator"]

def validateMeta (v : JVal) : Except String Meta :=
  match v with
  | .obj fs => do
    if !allKeysIn fs metaKeys then .error "extra_forbidden" else
    let sv ← match lookupF "schema_version" fs with
      | none => .ok "1.0.0"
      | some (.str s) => .ok s
      | some _ => .error "type_error.str"
    let gi ← vOptStr fs "generated_at_iso"
    let gen ← match lookupF "generator" fs with
      | none => .ok "ai_travel_planner@phase1"
      | some (.str s) => .ok s
      | some _ => .error "type_error.str"
    .ok ⟨sv, gi, gen⟩
  | _ => .error "model_type"

def itineraryKeys : List String :=
  ["destination", "start_date", "end_date", "total_days", "timezone", "currency",
   "travelers_count", "interests", "daily_plan", "logistics", "meta"]

/-- `ItineraryResponse.model_validate` over decoded JSON.  `logistics` is
accepted only as null/absent (the normalizer forwards it verbatim; this
development never exercises a non-null logistics object). -/
def validateItinerary (v : JVal) : Except String ItineraryResponse :=
  match v with
  | .obj fs => do
    if !allKeysIn fs itineraryKeys then .error "extra_forbidden" else
    let dest ← vStr fs "destination"
    let sd ← vDate fs "start_date"
    let ed ← vDate fs "end_date"
    let td ← match lookupF "total_days" fs with
      | some (.num d) =>
        if d.isInt then
          if 1 ≤ d.toInt then .ok d.toInt else .error "greater_than_equal"
        else .error "int_parsing"
      | _ => .error "int_type"
    let tz ← vOptStr fs "timezone"
    let ccy ← match lookupF "currency" fs with
      | none => .ok "USD"
      | some (.str s) => .ok s
      | some _ => .error "type_error.str"
    let tc ← match lookupF "travelers_count" fs with
      | none => .ok (some 1)
      | some .null => .ok none
      | some (.num d) =>
        if d.isInt then
          if 1 ≤ d.toInt ∧ d.toInt ≤ 12 then .ok (some d.toInt) else .error "range"
        else .error "int_parsing"
      | some _ => .error "int_type"
    let interests ← vStrListD fs "interests"
    let dp ← match lookupF "daily_plan" fs with
      | none => .ok []
      | some .null => .ok []
      | some (.arr xs) => mapExcept validateDayPlan xs
      | some _ => .error "list_type"
    let _ ← match lookupF "logistics" fs with
      | none => Except.ok (none : Option Unit)
      | some .null => Except.ok none
      | some _ => Except.error "logistics_not_modelled"
    let meta ← match lookupF "meta" fs with
      | none => .ok (⟨"1.0.0", none, "ai_travel_planner@phase1"⟩ : Meta)
      | some w => validateMeta w
    .ok ⟨dest, sd, ed, td, tz, ccy, tc, interests, dp, meta⟩
  | _ => .error "model_type"

/-! ## Day reconciliation (generate_itinerary lines 518-524)

`date + timedelta` is total here; Python would raise `OverflowError` past
year 9999, in which case no itinerary is returned at all. -/

def reconcileDays (it : ItineraryResponse) : ItineraryResponse :=
  let desired := it.total_days
  let current := it.daily_plan.length
  if (current : Int) < desired then
    let pads := (List.range (desired - current).toNat).map fun (i : Nat) =>
      (⟨(i : Int) + 1 + current, it.start_date.addDays (current + i),
        none, none, [], []⟩ : DayPlan)
    { it with daily_plan := it.daily_plan ++ pads }
  else if desired < (current : Int) then
    { it with daily_plan := it.daily_plan.take desired.toNat }
  else it

/-- C8: for every Activity input whose other fields validate, if both
start_time and end_time are present and end ≤ start, the model validator
does not reject: overall validation succeeds, end_time is cleared,
start_time is preserved, and the midnight-crossing tip is appended to
tips. -/
theorem C8_midnight_crossing (v : JVal) (a : Activity) (t1 t2 : Tm)
    (hf : validateActivityFields v = .ok a)
    (hs : a.start_time = some t1) (he : a.end_time = some t2)
    (hle : t2.toSec ≤ t1.toSec) :
    validateActivity v = .ok (normTimeOrder a) ∧
    (normTimeOrder a).end_time = none ∧
    (normTimeOrder a).start_time = some t1 ∧
    (normTimeOrder a).tips = a.tips ++ [midnightTip] := by
  have hnorm : normTimeOrder a =
      { a with end_time := none, tips := a.tips ++ [midnightTip] } := by
    unfold normTimeOrder
    rw [hs, he]
    simp [hle]
  refine ⟨by unfold validateActivity; rw [hf]; rfl, ?_, ?_, ?_⟩ <;> rw [hnorm] <;> simp [hs]

def wActJson : JVal :=
  .obj [("title", .str "Bar crawl"), ("start_time", .str "21:00"),
        ("end_time", .str "02:00")]

def wActFields : Activity :=
  ⟨"Bar crawl", "sightseeing", some ⟨21, 0, 0⟩, some ⟨2, 0, 0⟩, none, none, none, [], []⟩

/-- Witness for C8 on a concrete overnight activity (21:00 → 02:00). -/
theorem C8_midnight_crossing_witness :
    validateActivity wActJson = .ok (normTimeOrder wActFields) ∧
    (normTimeOrder wActFields).end_time = none ∧
    (normTimeOrder wActFields).start_time = some ⟨21, 0, 0⟩ ∧
    (normTimeOrder wActFields).tips = wActFields.tips ++ [midnightTip] :=
  C8_midnight_crossing wActJson wActFields ⟨21, 0, 0⟩ ⟨2, 0, 0⟩ rfl rfl rfl (by decide)

/-- C2: after the day-reconciliation step the day list has exactly
total_days entries; existing days (up to total_days) are kept unchanged in
place, and synthesized days at position i carry day_index i+1, date
start_date + i, empty activities and notes and a null summary; when the
validated list is longer, the result is exactly the first total_days
entries. -/
theorem C2_day_reconciliation (it : ItineraryResponse) (hpos : 1 ≤ it.total_days) :
    ((reconcileDays it).daily_plan.length : Int) = it.total_days ∧
    (∀ i : Nat, i < it.daily_plan.length → (i : Int) < it.total_days →
      (reconcileDays it).daily_plan.get? i = it.daily_plan.get? i) ∧
    (∀ i : Nat, it.daily_plan.length ≤ i → (i : Int) < it.total_days →
      (reconcileDays it).daily_plan.get? i =
        some ⟨(i : Int) + 1, it.start_date.addDays i, none, none, [], []⟩) := by
  rcases lt_trichotomy ((it.daily_plan.length : Int)) it.total_days with hlt | heq | hgt
  · have hrec : reconcileDays it = { it with daily_plan := it.daily_plan ++
        ((List.range (it.total_days - it.daily_plan.length).toNat).map fun (i : Nat) =>
          (⟨(i : Int) + 1 + it.daily_plan.length,
            it.start_date.addDays (it.daily_plan.length + i),
            none, none, [], []⟩ : DayPlan)) } := by
      unfold reconcileDays
      rw [if_pos hlt]
    rw [hrec]
    refine ⟨?_, ?_, ?_⟩
    · simp only [List.length_append, List.length_map, List.length_range]
      omega
    · intro i hi _
      exact List.get?_append hi
    · intro i hi hi2
      rw [List.get?_append_right hi]
      have hj : i - it.daily_plan.length < (it.total_days - it.daily_plan.length).toNat := by
        omega
      rw [List.get?_map, List.get?_range hj]
      simp only [Option.map_some']
      congr 1
      have h1 : ((i - it.daily_plan.length : Nat) : Int) + 1 + it.daily_plan.length
          = (i : Int) + 1 := by omega
      have h2 : ((it.daily_plan.length : Nat) : Int) + ((i - it.daily_plan.length : Nat) : Int)
          = (i : Int) := by omega
      rw [h1]
      congr 1
      unfold Date.addDays
      congr 1
      omega
  · have hrec : reconcileDays it = it := by
      unfold reconcileDays
      rw [if_neg (by omega), if_neg (by omega)]
    rw [hrec]
    exact ⟨heq, fun i _ _ => rfl, fun i hi hi2 => by omega⟩
  · have hrec : reconcileDays it = { it with
        daily_plan := it.daily_plan.take it.total_days.toNat } := by
      unfold reconcileDays
      rw [if_neg (by omega), if_pos (by omega)]
    rw [hrec]
    refine ⟨?_, ?_, ?_⟩
    · simp only [List.length_take]
      omega
    · intro i _ hi2
      exact List.get?_take (by omega)
    · intro i hi hi2
      omega

def wItin : ItineraryResponse :=
  ⟨"Lisbon", ⟨2025, 6, 1⟩, ⟨2025, 6, 3⟩, 3, some "GMT", "EUR", some 1, [],
   [⟨1, ⟨2025, 6, 1⟩, none, none, [], []⟩, ⟨2, ⟨2025, 6, 2⟩, none, none, [], []⟩],
   ⟨"1.0.0", none, "ai_travel_planner@phase1"⟩⟩

/-- Witness for C2: the spec scenario — a 3-day Lisbon request whose raw
response had only 2 days gets a synthesized day 3 dated 2025-06-03. -/
theorem C2_day_reconciliation_witness :
    ((reconcileDays wItin).daily_plan.length : Int) = wItin.total_days ∧
    (reconcileDays wItin).daily_plan.get? 2 =
      some ⟨3, wItin.start_date.addDays 2, none, none, [], []⟩ ∧
    wItin.start_date.addDays 2 = ⟨2025, 6, 3⟩ := by
  refine ⟨(C2_day_reconciliation wItin (by decide)).1, ?_, by decide⟩
  have h := (C2_day_reconciliation wItin (by decide)).2.2 2 (by decide) (by decide)
  simpa using h

/-! ## Budget annotator (services/budget_annotator.py) and currency
conversion (services/currency_service.py).

`CurrencyService.convert` is `(amount * rate).quantize(Decimal("0.01"),
ROUND_HALF_UP)`; the network rate lookup is an external collaborator and
is a parameter `rateF` here.  Validated float amounts pass through
`Decimal(str(x))`, which reproduces the decimal literal the model emitted;
they are `Dec` values throughout. -/

/-- `_pick_amount`: prefer amount_max, else amount_min. -/
def pickAmount (me : Option MoneyEstimate) : Option Dec :=
  match me with
  | none => none
  | some m =>
    match m.amount_max with
    | some x => some x
    | none => m.amount_min

def addOpt (t : Dec) (o : Option Dec) : Dec :=
  match o with
  | some x => t.add x
  | none => t

/-- `_activity_total_local`: estimated cost plus booking cost. -/
def activityTotalLocal (a : Activity) : Dec :=
  addOpt (addOpt (Dec.ofInt 0)
    (pickAmount a.estimated_cost))
    (pickAmount (match a.booking with
                 | some b => b.cost
                 | none => none))

/-- `CurrencyService.convert`. -/
def cvt (rateF : String → String → Dec) (amount : Dec) (base quote : String) : Dec :=
  (amount.mul (rateF base quote)).quant2HalfUp

/-- Per-day local-currency total (`local_sum` in `annotate_budget`). -/
def dayLocalSum (day : DayPlan) : Dec :=
  day.activities.foldl (fun t a => t.add (activityTotalLocal a)) (Dec.ofInt 0)

def dayHomeSum (localCcy homeCcy : String) (rateF : String → String → Dec)
    (day : DayPlan) : Dec :=
  if localCcy = homeCcy then dayLocalSum day
  else cvt rateF (dayLocalSum day) localCcy homeCcy

/-- `status = "UNDER" if diff >= 0 else "OVER"`. -/
def budgetStatus (cap0 : Int) (hs : Dec) : String :=
  if ((Dec.ofInt cap0).sub hs).nonneg then "UNDER" else "OVER"

/-- Round `num / den` (den positive) to the nearest integer, ties to
even; the integer-arithmetic form of `rndHalfEven`. -/
def rndHalfEvenInt (num : Int) (den : Nat) : Int :=
  let f := num / (den : Int)
  let r := num - f * den
  if 2 * r < (den : Int) then f
  else if (den : Int) < 2 * r then f + 1
  else if 2 ∣ f then f else f + 1

theorem rndHalfEvenInt_eq (num : Int) (den : Nat) (hden : 0 < den) :
    rndHalfEvenInt num den = rndHalfEven ((num : ℚ) / (den : ℚ)) := by
  unfold rndHalfEvenInt rndHalfEven
  have hfl : ⌊((num : ℚ) / (den : ℚ))⌋ = num / (den : Int) :=
    Rat.floor_intCast_div_natCast num den
  have hdq : (0 : ℚ) < (den : ℚ) := by exact_mod_cast hden
  have hfrac : (num : ℚ) / (den : ℚ) - ((num / (den : Int) : Int) : ℚ)
      = ((num - num / (den : Int) * den : Int) : ℚ) / (den : ℚ) := by
    push_cast
    field_simp
    ring
  have hc1 : ((num : ℚ) / (den : ℚ) - ((num / (den : Int) : Int) : ℚ) < 1 / 2)
      ↔ (2 * (num - num / (den : Int) * den) < (den : Int)) := by
    rw [hfrac, div_lt_div_iff hdq (by norm_num : (0:ℚ) < 2)]
    constructor
    · intro h
      have h2 : ((2 * (num - num / (den : Int) * den) : Int) : ℚ)
          < ((den : Int) : ℚ) := by push_cast at h ⊢; linarith
      exact_mod_cast h2
    · intro h
      have h2 : ((2 * (num - num / (den : Int) * den) : Int) : ℚ)
          < ((den : Int) : ℚ) := by exact_mod_cast h
      push_cast at h2 ⊢
      linarith
  have hc2 : ((1 : ℚ) / 2 < (num : ℚ) / (den : ℚ) - ((num / (den : Int) : Int) : ℚ))
      ↔ ((den : Int) < 2 * (num - num / (den : Int) * den)) := by
    rw [hfrac, div_lt_div_iff (by norm_num : (0:ℚ) < 2) hdq]
    constructor
    · intro h
      have h2 : ((den : Int) : ℚ)
          < ((2 * (num - num / (den : Int) * den) : Int) : ℚ) := by
        push_cast at h ⊢; linarith
      exact_mod_cast h2
    · intro h
      have h2 : ((den : Int) : ℚ)
          < ((2 * (num - num / (den : Int) * den) : Int) : ℚ) := by exact_mod_cast h
      push_cast at h2 ⊢
      linarith
  simp only [hfl, hc1, hc2]

/-- `pct = (abs(diff) / cap * 100) if cap > 0 else 0`, then
`.quantize(Decimal("0"))` with the default half-even rounding; decimal
division and quantisation are carried out on the exact ratio in integer
form. -/
def budgetPct (cap0 : Int) (hs : Dec) : Int :=
  if 0 < cap0 then
    let diff := (Dec.ofInt cap0).sub hs
    rndHalfEvenInt (|diff.n| * 100) (10 ^ diff.e * cap0.toNat)
  else 0

/-- The f-string `"Budget ({home_ccy}): {home_sum} / {cap} — {status} by
{pct}%"`. -/
def dayBudgetLine (localCcy homeCcy : String) (cap0 : Int)
    (rateF : String → String → Dec) (day : DayPlan) : String :=
  let hs := dayHomeSum localCcy homeCcy rateF day
  "Budget (" ++ homeCcy ++ "): " ++ hs.render ++ " / " ++ (Dec.ofInt cap0).render
    ++ " — " ++ budgetStatus cap0 hs ++ " by " ++ intRepr (budgetPct cap0 hs) ++ "%"

/-- Python `s.upper()` (ASCII inputs). -/
def pyUpper (s : String) : String := String.mk (s.data.map Char.toUpper)

/-- `annotate_budget`.  `if not home_currency or not max_daily_budget`
covers None, the empty string, and a zero cap. -/
def annotateBudget (it : ItineraryResponse) (homeCurrency : Option String)
    (maxDailyBudget : Option Int) (rateF : String → String → Dec) : ItineraryResponse :=
  match homeCurrency with
  | none => it
  | some h =>
    if h = "" then it
    else
      match maxDailyBudget with
      | none => it
      | some cap0 =>
        if cap0 = 0 then it
        else
          let localCcy := pyUpper it.currency
          let homeCcy := pyUpper h
          { it with daily_plan := it.daily_plan.map fun day =>
              { day with notes := dayBudgetLine localCcy homeCcy cap0 rateF day :: day.notes } }

/-- Python `s.startswith(p)`. -/
def strStarts (p s : String) : Bool := isPre p.data s.data

theorem Dec.val_ofInt (k : Int) : (Dec.ofInt k).val = (k : ℚ) := by
  simp [Dec.ofInt, Dec.val]

theorem Dec.val_add (a b : Dec) : (a.add b).val = a.val + b.val := by
  unfold Dec.add Dec.val
  simp only
  have hxa : (10 : ℚ) ^ (max a.e b.e - a.e) * 10 ^ a.e = 10 ^ max a.e b.e := by
    rw [← pow_add]
    congr 1
    omega
  have hxb : (10 : ℚ) ^ (max a.e b.e - b.e) * 10 ^ b.e = 10 ^ max a.e b.e := by
    rw [← pow_add]
    congr 1
    omega
  have h10 : ∀ k : Nat, ((10 : ℚ) ^ k) ≠ 0 := fun k => by positivity
  push_cast
  rw [add_div]
  congr 1
  · rw [← hxa, mul_comm ((10 : ℚ) ^ (max a.e b.e - a.e)) ((10 : ℚ) ^ a.e),
      mul_comm ((a.n : ℚ)) _, mul_comm ((10 : ℚ) ^ (max a.e b.e - a.e)) _]
    rw [mul_div_mul_right _ _ (h10 _)]
  · rw [← hxb, mul_comm ((10 : ℚ) ^ (max a.e b.e - b.e)) ((10 : ℚ) ^ b.e),
      mul_comm ((b.n : ℚ)) _, mul_comm ((10 : ℚ) ^ (max a.e b.e - b.e)) _]
    rw [mul_div_mul_right _ _ (h10 _)]

theorem Dec.val_neg (a : Dec) : a.neg.val = -a.val := by
  unfold Dec.neg Dec.val
  push_cast
  ring

theorem Dec.val_sub (a b : Dec) : (a.sub b).val = a.val - b.val := by
  unfold Dec.sub
  rw [Dec.val_add, Dec.val_neg]
  ring

theorem Dec.nonneg_iff (d : Dec) : d.nonneg = true ↔ 0 ≤ d.val := by
  unfold Dec.nonneg Dec.val
  rw [decide_eq_true_eq]
  have hp : (0 : ℚ) < 10 ^ d.e := by positivity
  constructor
  · intro h
    apply div_nonneg _ hp.le
    exact_mod_cast h
  · intro h
    by_contra hneg
    push_neg at hneg
    have : (d.n : ℚ) < 0 := by exact_mod_cast hneg
    have h2 := div_neg_of_neg_of_pos this hp
    linarith

/-! ## Pre-validation budget guardrail (`_sum_costs`, `_fmt_money`,
`_apply_budget_guardrails` in services/openai_service.py).  Float
arithmetic on cost sums and the ±5% bands is modelled on exact rationals;
`none` marks the places where Python would raise. -/

def allDigits (l : List Char) : Bool := l.all fun c => (charDigit c).isSome

def digitsToNat (l : List Char) : Nat :=
  l.foldl (fun acc c => acc * 10 + ((charDigit c).getD 0)) 0

def parseUDec (l : List Char) : Option ℚ :=
  let ip := l.takeWhile fun c => c ≠ '.'
  match l.drop ip.length with
  | [] => if ip ≠ [] ∧ allDigits ip then some (digitsToNat ip) else none
  | c :: fp =>
    if c = '.' ∧ (ip ≠ [] ∨ fp ≠ []) ∧ allDigits ip ∧ allDigits fp then
      some ((digitsToNat ip : ℚ) + (digitsToNat fp : ℚ) / 10 ^ fp.length)
    else none

/-- `float(s)` on plain decimal literals (the only string shapes that
reach `_as_num`). -/
def parseFloatStr (s : String) : Option ℚ :=
  match s.data with
  | '-' :: rest => (parseUDec rest).map Neg.neg
  | '+' :: rest => parseUDec rest
  | rest => parseUDec rest

/-- `_as_num`. -/
def asNum (v : JVal) : Option ℚ :=
  match v with
  | .null => none
  | .num d => some d.val
  | .bool b => some (if b then 1 else 0)
  | .str s => parseFloatStr s
  | _ => none

/-- One step of `_sum_costs`; `none` where `a.get` raises on a non-dict. -/
def sumCostsStep (acc : ℚ × ℚ) (a : JVal) : Option (ℚ × ℚ) :=
  match a with
  | .obj fs =>
    match lookupF "estimated_cost" fs with
    | some (.obj cfs) =>
      let lo := asNum ((lookupF "amount_min" cfs).getD .null)
      let hi := asNum ((lookupF "amount_max" cfs).getD .null)
      match lo, hi with
      | none, none => some acc
      | _, _ =>
        let lo2 := lo.getD (hi.getD 0)
        let hi2 := hi.getD lo2
        some (acc.1 + max 0 lo2, acc.2 + max 0 hi2)
    | _ => some acc
  | _ => none

def sumCosts (acts : List JVal) : Option (ℚ × ℚ) := acts.foldlM sumCostsStep (0, 0)

/-- `_fmt_money`. -/
def fmtMoney (currency : String) (lo hi : ℚ) : String :=
  let loI := rndHalfEven lo
  let hiI := rndHalfEven hi
  if loI = hiI then currency ++ " " ++ intRepr loI
  else currency ++ " " ++ intRepr loI ++ "-" ++ intRepr hiI

def lowerStarts (p s : String) : Bool := strStarts p s.toLower

def overSuggestion : String :=
  "Budget suggestion: swap one paid attraction for a free viewpoint/park, pick a casual eatery over fine dining, or reduce bar round count."

def underSuggestion : String :=
  "Budget suggestion: consider an upgrade (guided tour, rooftop view, dessert add-on) while keeping within +5%."

/-- Python list() of a value used with `or []` (how `notes` / `activities`
are read); `none` where iteration raises. -/
def iterList (v : JVal) : Option (List JVal) :=
  match v with
  | .arr xs => some xs
  | .str s => some (s.data.map fun c => JVal.str (String.mk [c]))
  | .obj fs => some (fs.map fun kv => JVal.str kv.1)
  | _ => none

def guardrailDay (capF : ℚ) (capI : Int) (currency : String) (d : JVal) : Option JVal :=
  match d with
  | .obj fs => do
    let notes0 ← iterList (getOr fs "notes" (.arr []))
    let notes1 := notes0.filter fun n =>
      !(match n with
        | .str s => lowerStarts "budget " s
        | _ => false)
    let acts ← iterList (getOr fs "activities" (.arr []))
    let mnmx ← sumCosts acts
    let verdict :=
      if capF * (105 / 100) < mnmx.2 then "OVER"
      else if mnmx.1 < capF * (95 / 100) then "UNDER"
      else "WITHIN"
    let line := "Budget summary: " ++ fmtMoney currency mnmx.1 mnmx.2 ++ " vs cap "
      ++ currency ++ " " ++ intRepr capI ++ " — " ++ verdict ++ " (±5% rule)."
    let notes2 := JVal.str line :: notes1
    let notes3 := notes2 ++
      (if verdict = "OVER" then [JVal.str overSuggestion]
       else if verdict = "UNDER" then [JVal.str underSuggestion]
       else [])
    pure (.obj (setF "notes" (.arr notes3) fs))
  | _ => none

/-- `_apply_budget_guardrails` (the in-place day mutation returned as a
new list). -/
def applyBudgetGuardrails (days : List JVal) (cap : Option Int)
    (currency : String) : Option (List JVal) :=
  match cap with
  | none => some days
  | some c =>
    if c = 0 then some days
    else days.mapM (guardrailDay (c : ℚ) c currency)

/-- `ItineraryRequest.max_daily_budget` is `Optional[conint(ge=0)]`. -/
def maxDailyBudgetOk (v : Option Int) : Bool :=
  match v with
  | none => true
  | some n => decide (0 ≤ n)

/-- C10: a zero daily budget cap — which the request model accepts — makes
both budget components leave their input completely unchanged, exactly as
when the cap is absent. -/
theorem C10_zero_cap_noop :
    (∀ it h rateF, annotateBudget it h (some 0) rateF = it) ∧
    (∀ it h rateF, annotateBudget it h none rateF = it) ∧
    maxDailyBudgetOk (some 0) = true ∧
    (∀ days ccy, applyBudgetGuardrails days (some 0) ccy = some days) ∧
    (∀ days ccy, applyBudgetGuardrails days none ccy = some days) := by
  refine ⟨?_, ?_, rfl, ?_, ?_⟩
  · intro it h r
    cases h with
    | none => rfl
    | some s => by_cases hs : s = "" <;> simp [annotateBudget, hs]
  · intro it h r
    cases h with
    | none => rfl
    | some s => by_cases hs : s = "" <;> simp [annotateBudget, hs]
  · intro days ccy; simp [applyBudgetGuardrails]
  · intro days ccy; rfl

def c5Itin : ItineraryResponse :=
  ⟨"Lisbon", ⟨2025, 6, 1⟩, ⟨2025, 6, 1⟩, 1, none, "EUR", some 1, [],
   [⟨1, ⟨2025, 6, 1⟩, none, none, [], []⟩],
   ⟨"1.0.0", none, "ai_travel_planner@phase1"⟩⟩

def c5Rate : String → String → Dec := fun _ _ => Dec.ofInt 1

/-- C5 counterexample: running `annotate_budget` twice on its own output
leaves a day whose notes contain two lines starting with "Budget (" —
the function is not idempotent. -/
theorem C5_counterexample :
    ((annotateBudget (annotateBudget c5Itin (some "EUR") (some 100) c5Rate)
        (some "EUR") (some 100) c5Rate).daily_plan.map
      fun d => (d.notes.filter fun n => strStarts "Budget (" n).length) = [2] := by
  rfl

/-- C5 (amended): `annotate_budget` prepends one budget line per day and
keeps all existing notes; it is not idempotent — a second run on its own
output prepends a second, identical budget line instead of replacing the
first, so after two runs each day's notes carry two budget lines. -/
theorem C5_budget_annotator_prepends (it : ItineraryResponse) (h : String)
    (cap : Int) (rateF : String → String → Dec) (hh : h ≠ "") (hc : cap ≠ 0) :
    (annotateBudget it (some h) (some cap) rateF).daily_plan
      = it.daily_plan.map (fun day =>
          { day with notes :=
              dayBudgetLine (pyUpper it.currency) (pyUpper h) cap rateF day :: day.notes }) ∧
    (annotateBudget (annotateBudget it (some h) (some cap) rateF)
        (some h) (some cap) rateF).daily_plan
      = it.daily_plan.map (fun day =>
          { day with notes :=
              dayBudgetLine (pyUpper it.currency) (pyUpper h) cap rateF day ::
              dayBudgetLine (pyUpper it.currency) (pyUpper h) cap rateF day :: day.notes }) := by
  constructor
  · simp [annotateBudget, hh, hc]
  · simp only [annotateBudget, hh, hc, if_neg, reduceIte, List.map_map]
    rfl

def c5ItinB : ItineraryResponse :=
  ⟨"Lisbon", ⟨2025, 6, 1⟩, ⟨2025, 6, 1⟩, 1, none, "EUR", some 1, [],
   [⟨1, ⟨2025, 6, 1⟩, none, none, [], ["see the castle"]⟩],
   ⟨"1.0.0", none, "ai_travel_planner@phase1"⟩⟩

/-- Witness for C5 on a concrete day with a pre-existing note. -/
theorem C5_budget_annotator_prepends_witness :
    (annotateBudget c5ItinB (some "EUR") (some 100) c5Rate).daily_plan
      = c5ItinB.daily_plan.map (fun day =>
          { day with notes :=
              dayBudgetLine (pyUpper c5ItinB.currency) (pyUpper "EUR") 100 c5Rate day ::
              day.notes }) ∧
    (annotateBudget (annotateBudget c5ItinB (some "EUR") (some 100) c5Rate)
        (some "EUR") (some 100) c5Rate).daily_plan
      = c5ItinB.daily_plan.map (fun day =>
          { day with notes :=
              dayBudgetLine (pyUpper c5ItinB.currency) (pyUpper "EUR") 100 c5Rate day ::
              dayBudgetLine (pyUpper c5ItinB.currency) (pyUpper "EUR") 100 c5Rate day ::
              day.notes }) :=
  C5_budget_annotator_prepends c5ItinB "EUR" 100 c5Rate (by decide) (by decide)

def c6Itin : ItineraryResponse :=
  ⟨"Paris", ⟨2025, 6, 1⟩, ⟨2025, 6, 1⟩, 1, none, "EUR", some 1, [],
   [⟨1, ⟨2025, 6, 1⟩, none, none,
     [⟨"Louvre", "museum", none, none, none, none,
       some ⟨"EUR", some ⟨1400, 1⟩, some ⟨1400, 1⟩, none⟩, [], []⟩], []⟩],
   ⟨"1.0.0", none, "ai_travel_planner@phase1"⟩⟩

/-- EUR→GBP at 0.85. -/
def c6Rate : String → String → Dec :=
  fun b q => if b = "EUR" ∧ q = "GBP" then ⟨85, 2⟩ else Dec.ofInt 1

/-- C6: the spec scenario (GBP cap 150, local EUR day total 140, rate
0.85 → "Budget (GBP): 119.00 / 150 — UNDER by 21%"), and in general the
prepended line follows the claimed format with STATUS == UNDER exactly
when the home-currency total does not exceed the cap, and pct the
percentage deviation rounded to a whole number (ties to even, decimal's
default). -/
theorem C6_budget_line_format :
    ((annotateBudget c6Itin (some "GBP") (some 150) c6Rate).daily_plan.map
        fun d => d.notes)
      = [["Budget (GBP): 119.00 / 150 — UNDER by 21%"]] ∧
    (∀ (it : ItineraryResponse) (h : String) (cap0 : Int)
        (rateF : String → String → Dec), h ≠ "" → cap0 ≠ 0 →
      (annotateBudget it (some h) (some cap0) rateF).daily_plan
        = it.daily_plan.map fun day =>
            { day with notes :=
                ("Budget (" ++ pyUpper h ++ "): "
                  ++ (dayHomeSum (pyUpper it.currency) (pyUpper h) rateF day).render
                  ++ " / " ++ (Dec.ofInt cap0).render ++ " — "
                  ++ budgetStatus cap0 (dayHomeSum (pyUpper it.currency) (pyUpper h) rateF day)
                  ++ " by "
                  ++ intRepr (budgetPct cap0
                        (dayHomeSum (pyUpper it.currency) (pyUpper h) rateF day))
                  ++ "%") :: day.notes }) ∧
    (∀ (cap0 : Int) (hs : Dec),
      (budgetStatus cap0 hs = "UNDER" ↔ hs.val ≤ (cap0 : ℚ))) ∧
    (∀ (cap0 : Int) (hs : Dec), 0 < cap0 →
      budgetPct cap0 hs = rndHalfEven (|(cap0 : ℚ) - hs.val| / (cap0 : ℚ) * 100)) := by
  refine ⟨by rfl, ?_, ?_, ?_⟩
  · intro it h cap0 rateF hh hc
    simp [annotateBudget, hh, hc, dayBudgetLine]
  · intro cap0 hs
    unfold budgetStatus
    by_cases hn : ((Dec.ofInt cap0).sub hs).nonneg = true
    · have hv := (Dec.nonneg_iff _).1 hn
      rw [Dec.val_sub, Dec.val_ofInt] at hv
      simp only [hn, if_true]
      constructor
      · intro _; linarith
      · intro _; trivial
    · have hlt : ¬ hs.val ≤ (cap0 : ℚ) := by
        intro hle
        apply hn
        rw [Dec.nonneg_iff, Dec.val_sub, Dec.val_ofInt]
        linarith
      simp only [hn, if_false, Bool.false_eq_true, reduceIte]
      constructor
      · intro hcontra
        exact absurd hcontra (by decide)
      · intro hcontra
        exact absurd hcontra hlt
  · intro cap0 hs hpos
    unfold budgetPct
    rw [if_pos hpos]
    simp only
    have hden : 0 < 10 ^ ((Dec.ofInt cap0).sub hs).e * cap0.toNat := by
      have : 0 < cap0.toNat := by omega
      positivity
    rw [rndHalfEvenInt_eq _ _ hden]
    congr 1
    have hcast : ((cap0.toNat : Nat) : ℚ) = (cap0 : ℚ) := by
      have : ((cap0.toNat : Nat) : Int) = cap0 := Int.toNat_of_nonneg (by omega)
      exact_mod_cast this
    have hval : ((Dec.ofInt cap0).sub hs).val = (cap0 : ℚ) - hs.val := by
      rw [Dec.val_sub, Dec.val_ofInt]
    have habs : |(cap0 : ℚ) - hs.val|
        = (|((Dec.ofInt cap0).sub hs).n| : ℚ) / 10 ^ ((Dec.ofInt cap0).sub hs).e := by
      rw [← hval]
      unfold Dec.val
      rw [abs_div, abs_of_pos (by positivity : (0:ℚ) < 10 ^ ((Dec.ofInt cap0).sub hs).e)]
    rw [habs]
    have hq : (0:ℚ) < 10 ^ ((Dec.ofInt cap0).sub hs).e := by positivity
    have hcq : (0:ℚ) < (cap0 : ℚ) := by exact_mod_cast hpos
    push_cast [hcast]
    field_simp

theorem C6_budget_line_format_witness :
    ((annotateBudget c6Itin (some "GBP") (some 150) c6Rate).daily_plan
      = c6Itin.daily_plan.map fun day =>
          { day with notes :=
              ("Budget (" ++ pyUpper "GBP" ++ "): "
                ++ (dayHomeSum (pyUpper c6Itin.currency) (pyUpper "GBP") c6Rate day).render
                ++ " / " ++ (Dec.ofInt 150).render ++ " — "
                ++ budgetStatus 150
                    (dayHomeSum (pyUpper c6Itin.currency) (pyUpper "GBP") c6Rate day)
                ++ " by "
                ++ intRepr (budgetPct 150
                      (dayHomeSum (pyUpper c6Itin.currency) (pyUpper "GBP") c6Rate day))
                ++ "%") :: day.notes }) ∧
    budgetPct 150 ⟨11900, 2⟩
      = rndHalfEven (|((150 : Int) : ℚ) - (⟨11900, 2⟩ : Dec).val|
          / ((150 : Int) : ℚ) * 100) :=
  ⟨C6_budget_line_format.2.1 c6Itin "GBP" 150 c6Rate (by decide) (by decide),
   C6_budget_line_format.2.2.2 150 ⟨11900, 2⟩ (by decide)⟩

/-! ## Weather injection (`_inject_weather`, openai_service.py) -/

/-- `climate_service.MonthlyClimate` (API floats carried as exact
decimals). -/
structure MonthlyClimate where
  month : Int
  tmax_c : Option Dec
  tmin_c : Option Dec
  precip_days : Option Dec
  precip_sum_mm : Option Dec
deriving Repr

/-- `climate_monthly.get(month)` on the int-keyed month map. -/
def lookupMonth (m : Nat) : List (Nat × MonthlyClimate) → Option MonthlyClimate
  | [] => none
  | (k, mc) :: rest => if k = m then some mc else lookupMonth m rest

/-- `w.setdefault(k, v)`: a new key is appended (dict insertion order). -/
def setdefault (fs : List (String × JVal)) (k : String) (v : JVal) :
    List (String × JVal) :=
  if hasKey k fs then fs else fs ++ [(k, v)]

/-- A sequence of `setdefault` calls, in order. -/
def setdefaults (w : List (String × JVal)) : List (String × JVal) → List (String × JVal)
  | [] => w
  | (k, v) :: rest => setdefaults (setdefault w k v) rest

/-- `_days_in_month(y, m)`: first of the next month minus first of this
month, in days. -/
def daysInMonth (y : Int) (m : Nat) : Int :=
  if m = 12 then dateDiff ⟨y + 1, 1, 1⟩ ⟨y, m, 1⟩
  else dateDiff ⟨y, m + 1, 1⟩ ⟨y, m, 1⟩

/-- Python `s.lower()` (ASCII inputs). -/
def pyLower (s : String) : String := String.mk (s.data.map Char.toLower)

/-- `int(round(x))`: float round is ties-to-even. -/
def roundDecInt (d : Dec) : Int := rndHalfEvenInt d.n (10 ^ d.e)

/-- `round(max(0.0, min(1.0, float(precip_days) / float(days_in_month))), 2)`. -/
def precipChance (pd : Dec) (y : Int) (m : Nat) : Dec :=
  let den := 10 ^ pd.e * (daysInMonth y m).toNat
  let num := max 0 (min (den : Int) pd.n)
  ⟨rndHalfEvenInt (num * 100) den, 2⟩

/-- The `setdefault` keys/values `_inject_weather` fills into
`day.weather`: always a summary, then high/low/precip chance when the
climate fields are not None, in source order. -/
def weatherDefaults (mc : MonthlyClimate) (dt : Date) : List (String × JVal) :=
  [("summary", .str ("Seasonal averages for " ++ monthName dt.month))]
  ++ (match mc.tmax_c with | some t => [("high_c", .num t)] | none => [])
  ++ (match mc.tmin_c with | some t => [("low_c", .num t)] | none => [])
  ++ (match mc.precip_days with
      | some pd => [("precip_chance", .num (precipChance pd dt.year dt.month))]
      | none => [])

/-- The weather-dict filling of `_inject_weather`. -/
def fillWeather (mc : MonthlyClimate) (dt : Date) (w0 : List (String × JVal)) :
    List (String × JVal) := setdefaults w0 (weatherDefaults mc dt)

/-- `", ".join(parts)`. -/
def joinS (sep : String) : List String → String
  | [] => ""
  | x :: xs => xs.foldl (fun a b => a ++ sep ++ b) x

/-- The f-string weather tip note for a month. -/
def weatherTip (mc : MonthlyClimate) (m : Nat) : String :=
  let parts : List String :=
    (match mc.tmax_c, mc.tmin_c with
     | some a, some b =>
        ["avg " ++ intRepr (roundDecInt a) ++ "°C/" ++ intRepr (roundDecInt b) ++ "°C"]
     | some a, none => ["avg high " ++ intRepr (roundDecInt a) ++ "°C"]
     | none, _ => [])
    ++ (match mc.precip_days with
        | some pd => ["~" ++ intRepr (roundDecInt pd) ++ " rainy day(s)"]
        | none => [])
  let hint := match mc.precip_days with
    | some pd =>
        if Dec.le (Dec.ofInt 5) pd then "pack light layers and a compact umbrella"
        else "bring a light layer for evenings"
    | none => "bring a light layer for evenings"
  "Weather tip (" ++ monthName m ++ "): " ++ joinS ", " parts ++ " — " ++ hint ++ "."

/-- `isinstance(n, str) and n.lower().startswith("weather tip")`. -/
def isTipNote (n : JVal) : Bool :=
  match n with
  | .str s => strStarts "weather tip" (pyLower s)
  | _ => false

/-- `has_tip = any(... for n in notes)` over a notes list. -/
def hasTipNote (ns : List JVal) : Bool := ns.any isTipNote

/-- The notes part of `_inject_weather`: `notes = d.get("notes") or []`,
the tip scan, and the append.  A truthy non-list raises: TypeError when a
number or bool is iterated; AttributeError at `notes.append` for a
nonempty string (its 1-char elements cannot carry the 11-char prefix) or
for a dict none of whose keys starts with the prefix. -/
def injectNotes (mc : MonthlyClimate) (m : Nat) (fs1 : List (String × JVal)) :
    Except String (List (String × JVal)) :=
  let app : List JVal → Except String (List (String × JVal)) := fun ns =>
    .ok (setF "notes" (.arr (ns ++ [.str (weatherTip mc m)])) fs1)
  match lookupF "notes" fs1 with
  | none => app []
  | some .null => app []
  | some (.bool b) => if b then .error "TypeError" else app []
  | some (.num x) => if x.n = 0 then app [] else .error "TypeError"
  | some (.str s) => if s = "" then app [] else .error "AttributeError"
  | some (.arr ns) => if hasTipNote ns then .ok fs1 else app ns
  | some (.obj kfs) =>
      if kfs.isEmpty then app []
      else if kfs.any (fun kv => strStarts "weather tip" (pyLower kv.1)) then .ok fs1
      else .error "AttributeError"

/-- `w = d.get("weather"); if not isinstance(w, dict): w = {}`. -/
def weatherOf (fs : List (String × JVal)) : List (String × JVal) :=
  match lookupF "weather" fs with
  | some (.obj wfs) => wfs
  | _ => []

/-- The body of the day loop for a qualifying day: fill `day.weather`
(non-dict values replaced by `{}`), store it back, then ensure a tip
note. -/
def injectDay (mc : MonthlyClimate) (dt : Date) (fs : List (String × JVal)) :
    Except String (List (String × JVal)) :=
  injectNotes mc dt.month (setF "weather" (.obj (fillWeather mc dt (weatherOf fs))) fs)

/-- One iteration of the day loop: any failure of
`date.fromisoformat(d["date"])` (missing key, non-string, bad format) is
caught and skips the day, as is a month with no climate entry; non-dict
days fail the subscript inside the same `try` and are skipped too. -/
def injectOneDay (cm0 : List (Nat × MonthlyClimate)) (d : JVal) : Except String JVal :=
  match d with
  | .obj fs =>
    match lookupF "date" fs with
    | some (.str s) =>
      match parseDate s with
      | some dt =>
        match lookupMonth dt.month cm0 with
        | some mc => (injectDay mc dt fs).map JVal.obj
        | none => .ok d
      | none => .ok d
    | _ => .ok d
  | _ => .ok d

/-- `_inject_weather(days, climate_monthly)` (mutates `days` in place;
embedded as returning the updated list, `.error` an uncaught
exception).  `if not climate_monthly: return` covers None and the empty
map. -/
def injectWeather (days : List JVal) (cm : Option (List (Nat × MonthlyClimate))) :
    Except String (List JVal) :=
  match cm with
  | none => .ok days
  | some cm0 => if cm0.isEmpty then .ok days else mapExcept (injectOneDay cm0) days

/-- Day qualifies for injection: a dict whose "date" parses and whose
month has a climate entry. -/
def dayQualifies (cm0 : List (Nat × MonthlyClimate)) (d : JVal) : Bool :=
  match d with
  | .obj fs =>
    match lookupF "date" fs with
    | some (.str s) =>
      match parseDate s with
      | some dt => (lookupMonth dt.month cm0).isSome
      | none => false
    | _ => false
  | _ => false

/-- The day's "notes" value is a list, absent, or falsy (what
`d.get("notes") or []` handles without raising). -/
def notesOkF (fs : List (String × JVal)) : Bool :=
  match lookupF "notes" fs with
  | none => true
  | some .null => true
  | some (.bool b) => !b
  | some (.num x) => decide (x.n = 0)
  | some (.str s) => decide (s = "")
  | some (.arr _) => true
  | some (.obj _) => false

def notesOkJ (d : JVal) : Bool :=
  match d with
  | .obj fs => notesOkF fs
  | _ => false

/-- Number of notes of a day dict that start (case-insensitively) with
"Weather tip". -/
def tipCountF (fs : List (String × JVal)) : Nat :=
  match lookupF "notes" fs with
  | some (.arr ns) => (ns.filter isTipNote).length
  | _ => 0

def tipNotesCount (d : JVal) : Nat :=
  match d with
  | .obj fs => tipCountF fs
  | _ => 0

/-! ### Weather-injection lemmas -/

theorem hasKey_append (k : String) (fs gs : List (String × JVal)) :
    hasKey k (fs ++ gs) = (hasKey k fs || hasKey k gs) := by
  induction fs with
  | nil => simp [hasKey, lookupF]
  | cons a fs ih =>
    obtain ⟨k2, w⟩ := a
    by_cases h : k2 = k <;> simp [hasKey, lookupF, h] at ih ⊢ <;> exact ih

theorem hasKey_setdefault (k k2 : String) (v : JVal) (fs : List (String × JVal)) :
    hasKey k (setdefault fs k2 v) = (hasKey k fs || decide (k2 = k)) := by
  unfold setdefault
  by_cases h : hasKey k2 fs
  · rw [if_pos h]
    by_cases he : k2 = k
    · subst he; simp [h]
    · simp [he]
  · rw [if_neg h, hasKey_append]
    by_cases he : k2 = k <;> simp [hasKey, lookupF, he]

theorem setdefault_of_hasKey (k : String) (v : JVal) (fs : List (String × JVal))
    (h : hasKey k fs = true) : setdefault fs k v = fs := by
  unfold setdefault
  rw [if_pos h]

theorem hasKey_setdefaults_mono (k : String) (l : List (String × JVal))
    (fs : List (String × JVal)) (h : hasKey k fs = true) :
    hasKey k (setdefaults fs l) = true := by
  induction l generalizing fs with
  | nil => exact h
  | cons a l ih =>
    obtain ⟨k2, v⟩ := a
    exact ih _ (by rw [hasKey_setdefault, h]; rfl)

theorem hasKey_setdefaults_mem (k : String) (v : JVal) (l : List (String × JVal))
    (fs : List (String × JVal)) (h : (k, v) ∈ l) :
    hasKey k (setdefaults fs l) = true := by
  induction l generalizing fs with
  | nil => cases h
  | cons a l ih =>
    obtain ⟨k2, v2⟩ := a
    rcases List.mem_cons.1 h with heq | hmem
    · injection heq with h1 h2
      subst h1
      show hasKey k (setdefaults (setdefault fs k v2) l) = true
      exact hasKey_setdefaults_mono _ _ _ (by rw [hasKey_setdefault]; simp)
    · show hasKey k (setdefaults (setdefault fs k2 v2) l) = true
      exact ih _ hmem

theorem setdefaults_of_hasKey (l : List (String × JVal)) (fs : List (String × JVal))
    (h : ∀ p ∈ l, hasKey p.1 fs = true) : setdefaults fs l = fs := by
  induction l with
  | nil => rfl
  | cons a l ih =>
    obtain ⟨k2, v2⟩ := a
    show setdefaults (setdefault fs k2 v2) l = fs
    rw [setdefault_of_hasKey _ _ _ (h (k2, v2) (List.mem_cons_self _ _))]
    exact ih fun p hp => h p (List.mem_cons_of_mem _ hp)

theorem fillWeather_idem (mc : MonthlyClimate) (dt : Date) (w0 : List (String × JVal)) :
    fillWeather mc dt (fillWeather mc dt w0) = fillWeather mc dt w0 := by
  unfold fillWeather
  exact setdefaults_of_hasKey _ _ fun p hp =>
    hasKey_setdefaults_mem p.1 p.2 _ _ hp

theorem setF_of_lookupF (k : String) (v : JVal) (fs : List (String × JVal))
    (h : lookupF k fs = some v) : setF k v fs = fs := by
  induction fs with
  | nil => simp [lookupF] at h
  | cons a fs ih =>
    obtain ⟨k2, w⟩ := a
    by_cases he : k2 = k
    · subst he
      simp [lookupF] at h
      simp [setF, h]
    · simp [lookupF, he] at h
      simp [setF, he, ih h]

theorem isPre_append_left (p as bs : List Char) (h : isPre p as = true) :
    isPre p (as ++ bs) = true := by
  induction p generalizing as with
  | nil => rfl
  | cons c cs ih =>
    cases as with
    | nil => simp [isPre] at h
    | cons a as =>
      simp [isPre] at h ⊢
      exact ⟨h.1, ih _ h.2⟩

theorem weatherTip_isTip (mc : MonthlyClimate) (m : Nat) :
    isTipNote (.str (weatherTip mc m)) = true := by
  show strStarts "weather tip" (pyLower (weatherTip mc m)) = true
  unfold weatherTip strStarts pyLower
  simp only [String.data_append, List.map_append, List.append_assoc]
  refine isPre_append_left _ _ _ ?_
  decide

theorem hasTipNote_append_tip (ns : List JVal) (mc : MonthlyClimate) (m : Nat) :
    hasTipNote (ns ++ [.str (weatherTip mc m)]) = true := by
  unfold hasTipNote
  rw [List.any_append]
  simp [weatherTip_isTip]

theorem injectNotes_fixpoint (mc : MonthlyClimate) (m : Nat)
    (fs1 : List (String × JVal)) (l : List JVal) (hl : hasTipNote l = true) :
    injectNotes mc m (setF "notes" (.arr l) fs1)
      = .ok (setF "notes" (.arr l) fs1) := by
  unfold injectNotes
  rw [lookupF_setF_same]
  simp [hl]

theorem injectNotes_ok (mc : MonthlyClimate) (m : Nat)
    (fs1 fs' : List (String × JVal)) (h : injectNotes mc m fs1 = .ok fs') :
    (∀ k, k ≠ "notes" → lookupF k fs' = lookupF k fs1) ∧
    injectNotes mc m fs' = .ok fs' := by
  have happ : ∀ l : List JVal, hasTipNote l = true →
      setF "notes" (.arr l) fs1 = fs' →
      (∀ k, k ≠ "notes" → lookupF k fs' = lookupF k fs1) ∧
      injectNotes mc m fs' = .ok fs' := by
    intro l hl hfs
    subst hfs
    exact ⟨fun k hk => lookupF_setF_other _ _ _ _ hk,
           injectNotes_fixpoint mc m fs1 l hl⟩
  unfold injectNotes at h
  rcases hn : lookupF "notes" fs1 with _ | v
  · simp only [hn, Except.ok.injEq] at h
    exact happ _ (hasTipNote_append_tip [] mc m) h
  · cases v with
    | null =>
      simp only [hn, Except.ok.injEq] at h
      exact happ _ (hasTipNote_append_tip [] mc m) h
    | bool b =>
      cases b with
      | false =>
        simp only [hn, Bool.false_eq_true, if_false, Except.ok.injEq] at h
        exact happ _ (hasTipNote_append_tip [] mc m) h
      | true => simp [hn] at h
    | num x =>
      by_cases hx : x.n = 0
      · simp only [hn, hx, if_pos, Except.ok.injEq] at h
        exact happ _ (hasTipNote_append_tip [] mc m) h
      · simp [hn, hx] at h
    | str s =>
      by_cases hs : s = ""
      · simp only [hn, hs, if_pos, Except.ok.injEq] at h
        exact happ _ (hasTipNote_append_tip [] mc m) h
      · simp [hn, hs] at h
    | arr ns =>
      by_cases ht : hasTipNote ns
      · simp only [hn, ht, if_pos, Except.ok.injEq] at h
        subst h
        refine ⟨fun k hk => rfl, ?_⟩
        unfold injectNotes
        rw [hn]
        simp [ht]
      · simp only [hn, ht, Bool.false_eq_true, if_false, Except.ok.injEq] at h
        exact happ _ (hasTipNote_append_tip ns mc m) h
    | obj kfs =>
      by_cases he : kfs.isEmpty
      · simp only [hn, he, if_pos, Except.ok.injEq] at h
        exact happ _ (hasTipNote_append_tip [] mc m) h
      · by_cases hk : kfs.any (fun kv => strStarts "weather tip" (pyLower kv.1))
        · simp only [hn, he, hk, Bool.false_eq_true, if_false, if_pos,
            Except.ok.injEq] at h
          subst h
          refine ⟨fun k hk2 => rfl, ?_⟩
          unfold injectNotes
          rw [hn]
          simp [he, hk]
        · simp [hn, he, hk] at h

theorem injectDay_ok (mc : MonthlyClimate) (dt : Date)
    (fs fs' : List (String × JVal)) (h : injectDay mc dt fs = .ok fs') :
    injectDay mc dt fs' = .ok fs' ∧
    ∀ k, k ≠ "notes" → k ≠ "weather" → lookupF k fs' = lookupF k fs := by
  unfold injectDay at h
  obtain ⟨hpres, hsec⟩ := injectNotes_ok _ _ _ _ h
  have hw : lookupF "weather" fs' = some (.obj (fillWeather mc dt (weatherOf fs))) := by
    rw [hpres "weather" (by decide), lookupF_setF_same]
  have hwOf : weatherOf fs' = fillWeather mc dt (weatherOf fs) := by
    unfold weatherOf
    rw [hw]
    rfl
  constructor
  · unfold injectDay
    rw [hwOf, fillWeather_idem, setF_of_lookupF _ _ _ hw]
    exact hsec
  · intro k hk1 hk2
    rw [hpres k hk1]
    exact lookupF_setF_other _ _ _ _ hk2

theorem injectOneDay_idem (cm0 : List (Nat × MonthlyClimate)) (d d' : JVal)
    (h : injectOneDay cm0 d = .ok d') : injectOneDay cm0 d' = .ok d' := by
  cases d with
  | obj fs =>
    simp only [injectOneDay] at h
    rcases hd : lookupF "date" fs with _ | v
    · simp only [hd, Except.ok.injEq] at h
      subst h
      simp [injectOneDay, hd]
    · cases v with
      | str s =>
        rcases hp : parseDate s with _ | dt
        · simp only [hd, hp, Except.ok.injEq] at h
          subst h
          simp [injectOneDay, hd, hp]
        · rcases hm : lookupMonth dt.month cm0 with _ | mc
          · simp only [hd, hp, hm, Except.ok.injEq] at h
            subst h
            simp [injectOneDay, hd, hp, hm]
          · rcases hi : injectDay mc dt fs with e | fs2
            · simp [hd, hp, hm, hi, Except.map] at h
            · simp only [hd, hp, hm, hi, Except.map, Except.ok.injEq] at h
              subst h
              obtain ⟨hidem, hpres⟩ := injectDay_ok _ _ _ _ hi
              have hdate : lookupF "date" fs2 = some (.str s) := by
                rw [hpres "date" (by decide) (by decide), hd]
              simp only [injectOneDay, hdate, hp, hm, hidem, Except.map]
      | null =>
        simp only [hd, Except.ok.injEq] at h
        subst h
        simp [injectOneDay, hd]
      | bool b =>
        simp only [hd, Except.ok.injEq] at h
        subst h
        simp [injectOneDay, hd]
      | num x =>
        simp only [hd, Except.ok.injEq] at h
        subst h
        simp [injectOneDay, hd]
      | arr xs =>
        simp only [hd, Except.ok.injEq] at h
        subst h
        simp [injectOneDay, hd]
      | obj gs =>
        simp only [hd, Except.ok.injEq] at h
        subst h
        simp [injectOneDay, hd]
  | null =>
    simp only [injectOneDay, Except.ok.injEq] at h
    subst h
    rfl
  | bool b =>
    simp only [injectOneDay, Except.ok.injEq] at h
    subst h
    rfl
  | num x =>
    simp only [injectOneDay, Except.ok.injEq] at h
    subst h
    rfl
  | str s =>
    simp only [injectOneDay, Except.ok.injEq] at h
    subst h
    rfl
  | arr xs =>
    simp only [injectOneDay, Except.ok.injEq] at h
    subst h
    rfl

theorem mapExcept_ok_idem (f : JVal → Except String JVal)
    (hf : ∀ x y, f x = .ok y → f y = .ok y) :
    ∀ xs ys : List JVal, mapExcept f xs = .ok ys → mapExcept f ys = .ok ys := by
  intro xs
  induction xs with
  | nil =>
    intro ys h
    simp only [mapExcept, Except.ok.injEq] at h
    subst h
    rfl
  | cons x xs ih =>
    intro ys h
    rcases hx : f x with e | y
    · simp [mapExcept, hx, bind, Except.bind] at h
    · rcases hxs : mapExcept f xs with e | ys0
      · simp [mapExcept, hx, hxs, bind, Except.bind] at h
      · simp only [mapExcept, hx, hxs, bind, Except.bind, Except.ok.injEq] at h
        subst h
        have h1 := hf x y hx
        have h2 := ih ys0 hxs
        simp [mapExcept, h1, h2, bind, Except.bind]

theorem mapExcept_get {α : Type} (f : JVal → Except String α) :
    ∀ (xs : List JVal) (ys : List α), mapExcept f xs = .ok ys →
    ∀ (i : Nat) (x : JVal), xs.get? i = some x →
    ∃ y, ys.get? i = some y ∧ f x = .ok y := by
  intro xs
  induction xs with
  | nil =>
    intro ys h i x hx
    simp at hx
  | cons a xs ih =>
    intro ys h i x hx
    rcases ha : f a with e | y
    · simp [mapExcept, ha, bind, Except.bind] at h
    · rcases hxs : mapExcept f xs with e | ys0
      · simp [mapExcept, ha, hxs, bind, Except.bind] at h
      · simp only [mapExcept, ha, hxs, bind, Except.bind, Except.ok.injEq] at h
        subst h
        cases i with
        | zero =>
          rw [List.get?_cons_zero] at hx
          injection hx with hx
          subst hx
          exact ⟨y, rfl, ha⟩
        | succ i =>
          rw [List.get?_cons_succ] at hx
          exact ih ys0 hxs i x hx

theorem notesOkF_setF (k : String) (v : JVal) (fs : List (String × JVal))
    (hk : ("notes" : String) ≠ k) : notesOkF (setF k v fs) = notesOkF fs := by
  unfold notesOkF
  rw [lookupF_setF_other _ _ _ _ hk]

theorem tipCountF_setF (k : String) (v : JVal) (fs : List (String × JVal))
    (hk : ("notes" : String) ≠ k) : tipCountF (setF k v fs) = tipCountF fs := by
  unfold tipCountF
  rw [lookupF_setF_other _ _ _ _ hk]

theorem injectNotes_count (mc : MonthlyClimate) (m : Nat)
    (fs1 fs' : List (String × JVal)) (h : injectNotes mc m fs1 = .ok fs')
    (hok : notesOkF fs1 = true) :
    tipCountF fs' = max 1 (tipCountF fs1) := by
  have happ : ∀ ns : List JVal, hasTipNote ns = false →
      setF "notes" (.arr (ns ++ [.str (weatherTip mc m)])) fs1 = fs' →
      tipCountF fs' = 1 := by
    intro ns hns hfs
    subst hfs
    unfold tipCountF
    simp only [lookupF_setF_same]
    rw [List.filter_append]
    have hnil : ns.filter isTipNote = [] := by
      rw [List.filter_eq_nil]
      intro a ha
      by_cases hpa : isTipNote a = true
      · exact absurd (List.any_eq_true.2 ⟨a, ha, hpa⟩) (by rw [hasTipNote] at hns; rw [hns]; decide)
      · simpa using hpa
    rw [hnil]
    simp [List.filter, weatherTip_isTip]
  unfold injectNotes at h
  unfold notesOkF at hok
  rcases hn : lookupF "notes" fs1 with _ | v
  · simp only [hn, Except.ok.injEq] at h
    have hc : tipCountF fs1 = 0 := by unfold tipCountF; rw [hn]
    rw [hc, happ [] (by decide) h]
    decide
  · cases v with
    | null =>
      simp only [hn, Except.ok.injEq] at h
      have hc : tipCountF fs1 = 0 := by unfold tipCountF; rw [hn]
      rw [hc, happ [] (by decide) h]
      decide
    | bool b =>
      simp only [hn] at hok
      cases b with
      | false =>
        simp only [hn, Bool.false_eq_true, if_false, Except.ok.injEq] at h
        have hc : tipCountF fs1 = 0 := by unfold tipCountF; rw [hn]
        rw [hc, happ [] (by decide) h]
        decide
      | true => simp at hok
    | num x =>
      simp only [hn, decide_eq_true_eq] at hok
      simp only [hn, hok, if_pos, Except.ok.injEq] at h
      have hc : tipCountF fs1 = 0 := by unfold tipCountF; rw [hn]
      rw [hc, happ [] (by decide) h]
      decide
    | str s =>
      simp only [hn, decide_eq_true_eq] at hok
      simp only [hn, hok, if_pos, Except.ok.injEq] at h
      have hc : tipCountF fs1 = 0 := by unfold tipCountF; rw [hn]
      rw [hc, happ [] (by decide) h]
      decide
    | arr ns =>
      by_cases ht : hasTipNote ns
      · simp only [hn, ht, if_pos, Except.ok.injEq] at h
        subst h
        obtain ⟨x, hx, hpx⟩ := List.any_eq_true.1 ht
        have hmem : x ∈ ns.filter isTipNote := List.mem_filter.2 ⟨hx, hpx⟩
        have hpos : 1 ≤ (ns.filter isTipNote).length :=
          List.length_pos_of_mem hmem
        unfold tipCountF
        simp only [hn]
        exact (Nat.max_eq_right hpos).symm
      · simp only [hn, ht, Bool.false_eq_true, if_false, Except.ok.injEq] at h
        have hns : hasTipNote ns = false := by simpa using ht
        have hc : tipCountF fs1 = 0 := by
          unfold tipCountF
          simp only [hn]
          have hnil : ns.filter isTipNote = [] := by
            rw [List.filter_eq_nil]
            intro a ha
            by_cases hpa : isTipNote a = true
            · exact absurd (List.any_eq_true.2 ⟨a, ha, hpa⟩)
                (by rw [hasTipNote] at hns; rw [hns]; decide)
            · simpa using hpa
          rw [hnil]
          rfl
        rw [hc, happ ns hns h]
        decide
    | obj kfs =>
      simp only [hn] at hok
      simp at hok

theorem injectDay_count (mc : MonthlyClimate) (dt : Date)
    (fs fs' : List (String × JVal)) (h : injectDay mc dt fs = .ok fs')
    (hok : notesOkF fs = true) :
    tipCountF fs' = max 1 (tipCountF fs) := by
  unfold injectDay at h
  have h1 := injectNotes_count _ _ _ _ h
    (by rw [notesOkF_setF _ _ _ (by decide)]; exact hok)
  rw [h1, tipCountF_setF _ _ _ (by decide)]

theorem injectOneDay_count (cm0 : List (Nat × MonthlyClimate)) (d d' : JVal)
    (h : injectOneDay cm0 d = .ok d') (hq : dayQualifies cm0 d = true)
    (hok : notesOkJ d = true) :
    tipNotesCount d' = max 1 (tipNotesCount d) := by
  cases d with
  | obj fs =>
    simp only [injectOneDay] at h
    simp only [dayQualifies] at hq
    rcases hd : lookupF "date" fs with _ | v
    · simp [hd] at hq
    · cases v with
      | str s =>
        rcases hp : parseDate s with _ | dt
        · simp [hd, hp] at hq
        · rcases hm : lookupMonth dt.month cm0 with _ | mc
          · simp [hd, hp, hm] at hq
          · rcases hi : injectDay mc dt fs with e | fs2
            · simp [hd, hp, hm, hi, Except.map] at h
            · simp only [hd, hp, hm, hi, Except.map, Except.ok.injEq] at h
              subst h
              exact injectDay_count _ _ _ _ hi hok
      | null => simp [hd] at hq
      | bool b => simp [hd] at hq
      | num x => simp [hd] at hq
      | arr xs => simp [hd] at hq
      | obj gs => simp [hd] at hq
  | null => simp [dayQualifies] at hq
  | bool b => simp [dayQualifies] at hq
  | num x => simp [dayQualifies] at hq
  | str s => simp [dayQualifies] at hq
  | arr xs => simp [dayQualifies] at hq

/-- C9 scenario data: June climate (tmax 23.5, tmin 15.2, 8.4 precip
days), one day already carrying two weather-tip notes. -/
def c9Cm : List (Nat × MonthlyClimate) :=
  [(6, ⟨6, some ⟨235, 1⟩, some ⟨152, 1⟩, some ⟨84, 1⟩, some ⟨380, 1⟩⟩)]

def c9TipDay : JVal := .obj [("date", .str "2025-06-10"),
  ("notes", .arr [.str "Weather tip: pack sunscreen", .str "weather tip: hats help"])]

def c9TipDayOut : JVal := .obj
  [("date", .str "2025-06-10"),
   ("notes", .arr [.str "Weather tip: pack sunscreen", .str "weather tip: hats help"]),
   ("weather", .obj
     [("summary", .str "Seasonal averages for June"),
      ("high_c", .num ⟨235, 1⟩),
      ("low_c", .num ⟨152, 1⟩),
      ("precip_chance", .num ⟨28, 2⟩)])]

/-- C9 (counterexample): a day arriving with two weather-tip notes keeps
both after one run and after two runs — never "exactly one Weather tip
line per day". -/
theorem C9_counterexample :
    injectWeather [c9TipDay] (some c9Cm) = Except.ok [c9TipDayOut] ∧
    injectWeather [c9TipDayOut] (some c9Cm) = Except.ok [c9TipDayOut] ∧
    tipNotesCount c9TipDayOut = 2 ∧ tipNotesCount c9TipDay = 2 :=
  ⟨rfl, rfl, rfl, rfl⟩

/-- C9 (amended): when `_inject_weather` completes without raising it is
idempotent — a second run returns the day list unchanged, so it never
adds a second tip line; and each day whose "date" parses to a month with
a climate entry and whose "notes" is a list, absent, or falsy ends with
`max 1 k` notes starting case-insensitively with "Weather tip", where
`k` is its prior tip count: exactly one if it had none, but existing tip
lines all survive. -/
theorem C9_weather_injection :
    (∀ (days : List JVal) (cm : Option (List (Nat × MonthlyClimate)))
        (out : List JVal),
        injectWeather days cm = Except.ok out →
        injectWeather out cm = Except.ok out) ∧
    (∀ (days : List JVal) (cm0 : List (Nat × MonthlyClimate)) (out : List JVal)
        (i : Nat) (d : JVal),
        injectWeather days (some cm0) = Except.ok out →
        days.get? i = some d → dayQualifies cm0 d = true → notesOkJ d = true →
        ∃ d', out.get? i = some d' ∧
          tipNotesCount d' = max 1 (tipNotesCount d)) := by
  constructor
  · intro days cm out h
    cases cm with
    | none =>
      simp only [injectWeather, Except.ok.injEq] at h
      subst h
      rfl
    | some cm0 =>
      by_cases he : cm0.isEmpty
      · simp only [injectWeather, he, if_pos, Except.ok.injEq] at h
        subst h
        simp [injectWeather, he]
      · simp only [injectWeather, he, Bool.false_eq_true, if_false] at h ⊢
        exact mapExcept_ok_idem _ (injectOneDay_idem cm0) days out h
  · intro days cm0 out i d h hget hq hok
    by_cases he : cm0.isEmpty
    · exfalso
      have hnil : cm0 = [] := List.isEmpty_iff.1 he
      subst hnil
      cases d with
      | obj fs =>
        simp only [dayQualifies] at hq
        rcases hd : lookupF "date" fs with _ | v
        · simp [hd] at hq
        · cases v <;> simp [hd] at hq
          rename_i s
          rcases hp : parseDate s with _ | dt
          · simp [hp] at hq
          · simp [hp, lookupMonth] at hq
      | null => simp [dayQualifies] at hq
      | bool b => simp [dayQualifies] at hq
      | num x => simp [dayQualifies] at hq
      | str s2 => simp [dayQualifies] at hq
      | arr xs => simp [dayQualifies] at hq
    · simp only [injectWeather, he, Bool.false_eq_true, if_false] at h
      obtain ⟨d', hd', hone⟩ := mapExcept_get _ days out h i d hget
      exact ⟨d', hd', injectOneDay_count cm0 d d' hone hq hok⟩

def c9Fresh : JVal := .obj [("date", .str "2025-06-10")]

def c9FreshOut : JVal := .obj
  [("date", .str "2025-06-10"),
   ("weather", .obj
     [("summary", .str "Seasonal averages for June"),
      ("high_c", .num ⟨235, 1⟩),
      ("low_c", .num ⟨152, 1⟩),
      ("precip_chance", .num ⟨28, 2⟩)]),
   ("notes", .arr [.str
     "Weather tip (June): avg 24°C/15°C, ~8 rainy day(s) — pack light layers and a compact umbrella."])]

theorem C9_weather_injection_witness :
    injectWeather [c9FreshOut] (some c9Cm) = Except.ok [c9FreshOut] ∧
    (∃ d', [c9FreshOut].get? 0 = some d' ∧
      tipNotesCount d' = max 1 (tipNotesCount c9Fresh)) :=
  ⟨C9_weather_injection.1 [c9Fresh] (some c9Cm) [c9FreshOut] (by rfl),
   C9_weather_injection.2 [c9Fresh] c9Cm [c9FreshOut] 0 c9Fresh (by rfl) (by rfl)
     (by rfl) (by rfl)⟩

/-! ## normalize_candidate_for_response (openai_service.py 320-445) -/

/-- The request fields `normalize_candidate_for_response` reads
(`models.ItineraryRequest`; the prompt-only fields — interests, pace,
budget_level, transport, caps — do not influence normalization and are
not carried). -/
structure ItineraryRequest where
  destination : String
  start_date : Date
  end_date : Option Date
  duration_days : Option Int
  home_currency : Option String
deriving Repr

/-- Python `s.strip()` (ASCII whitespace). -/
def pyStrip (s : String) : String :=
  String.mk (((s.data.dropWhile Char.isWhitespace).reverse.dropWhile
    Char.isWhitespace).reverse)

def lookupS (k : String) : List (String × String) → Option String
  | [] => none
  | (k2, v) :: fs => if k2 = k then some v else lookupS k fs

/-- `calendar_service._CITY_TO_CC`. -/
def cityToCC : List (String × String) :=
  [("lisbon", "PT"), ("porto", "PT"), ("portugal", "PT"), ("algarve", "PT"),
   ("barcelona", "ES"), ("madrid", "ES"), ("sevilla", "ES"), ("seville", "ES"),
   ("valencia", "ES"), ("spain", "ES"), ("berlin", "DE"), ("munich", "DE"),
   ("münchen", "DE"), ("frankfurt", "DE"), ("germany", "DE"), ("paris", "FR"),
   ("lyon", "FR"), ("nice", "FR"), ("france", "FR"), ("rome", "IT"),
   ("milan", "IT"), ("venice", "IT"), ("florence", "IT"), ("italy", "IT"),
   ("london", "GB"), ("manchester", "GB"), ("edinburgh", "GB"), ("uk", "GB"),
   ("united kingdom", "GB"), ("england", "GB"), ("amsterdam", "NL"), ("rotterdam", "NL"),
   ("netherlands", "NL"), ("vienna", "AT"), ("austria", "AT"), ("prague", "CZ"),
   ("czech", "CZ"), ("czech republic", "CZ"), ("budapest", "HU"), ("hungary", "HU"),
   ("athens", "GR"), ("greece", "GR"), ("zurich", "CH"), ("switzerland", "CH"),
   ("oslo", "NO"), ("norway", "NO"), ("stockholm", "SE"), ("sweden", "SE"),
   ("copenhagen", "DK"), ("denmark", "DK"), ("dublin", "IE"), ("ireland", "IE"),
   ("iceland", "IS"), ("reykjavik", "IS"), ("warsaw", "PL"), ("krakow", "PL"),
   ("poland", "PL"), ("brussels", "BE"), ("belgium", "BE")]

/-- `calendar_service.guess_country_code`. -/
def guess_country_code (destination : String) : Option String :=
  lookupS (pyLower (pyStrip destination)) cityToCC

/-- `guess_country_code(out["destination"])` where the destination slot
holds a decoded JSON value: a falsy value is replaced by `""` (no match);
a truthy non-string raises AttributeError at `.strip()`. -/
def guessCCJ (v : JVal) : Except String (Option String) :=
  if v.truthy then
    match v with
    | .str s => .ok (guess_country_code s)
    | _ => .error "AttributeError"
  else .ok none

/-- `CC_TO_CURRENCY` (openai_service.py 343-386). -/
def ccToCurrency : List (String × String) :=
  [("GB", "GBP"), ("IE", "EUR"), ("FR", "EUR"), ("PT", "EUR"), ("ES", "EUR"), ("DE", "EUR"),
   ("IT", "EUR"), ("NL", "EUR"), ("BE", "EUR"), ("AT", "EUR"), ("CH", "CHF"), ("DK", "DKK"),
   ("SE", "SEK"), ("NO", "NOK"), ("PL", "PLN"), ("CZ", "CZK"), ("HU", "HUF"), ("GR", "EUR"),
   ("FI", "EUR"), ("EE", "EUR"), ("LV", "EUR"), ("LT", "EUR"), ("SK", "EUR"), ("SI", "EUR"),
   ("HR", "EUR"), ("RO", "RON"), ("BG", "BGN"), ("RS", "RSD"), ("ME", "EUR"), ("MK", "MKD"),
   ("AL", "ALL"), ("BA", "BAM"), ("MD", "MDL"), ("UA", "UAH"), ("BY", "BYN"), ("RU", "RUB"),
   ("IS", "ISK"), ("TR", "TRY"), ("CY", "EUR"), ("MT", "EUR"), ("LU", "EUR"), ("MC", "EUR"),
   ("US", "USD"), ("CA", "CAD"), ("MX", "MXN"), ("GT", "GTQ"), ("BZ", "BZD"), ("SV", "USD"),
   ("HN", "HNL"), ("NI", "NIO"), ("CR", "CRC"), ("PA", "PAB"), ("CU", "CUP"), ("JM", "JMD"),
   ("HT", "HTG"), ("DO", "DOP"), ("PR", "USD"), ("BS", "BSD"), ("BB", "BBD"), ("TT", "TTD"),
   ("BR", "BRL"), ("AR", "ARS"), ("CL", "CLP"), ("PE", "PEN"), ("CO", "COP"), ("VE", "VES"),
   ("EC", "USD"), ("BO", "BOB"), ("PY", "PYG"), ("UY", "UYU"), ("SR", "SRD"), ("GY", "GYD"),
   ("FK", "FKP"), ("GF", "EUR"), ("CN", "CNY"), ("JP", "JPY"), ("KR", "KRW"), ("IN", "INR"),
   ("TH", "THB"), ("VN", "VND"), ("PH", "PHP"), ("ID", "IDR"), ("MY", "MYR"), ("SG", "SGD"),
   ("HK", "HKD"), ("TW", "TWD"), ("MO", "MOP"), ("KH", "KHR"), ("LA", "LAK"), ("MM", "MMK"),
   ("BD", "BDT"), ("LK", "LKR"), ("NP", "NPR"), ("BT", "BTN"), ("MV", "MVR"), ("AF", "AFN"),
   ("PK", "PKR"), ("IR", "IRR"), ("IQ", "IQD"), ("SY", "SYP"), ("LB", "LBP"), ("JO", "JOD"),
   ("IL", "ILS"), ("PS", "ILS"), ("SA", "SAR"), ("AE", "AED"), ("QA", "QAR"), ("BH", "BHD"),
   ("KW", "KWD"), ("OM", "OMR"), ("YE", "YER"), ("UZ", "UZS"), ("KZ", "KZT"), ("KG", "KGS"),
   ("TJ", "TJS"), ("TM", "TMT"), ("MN", "MNT"), ("KP", "KPW"), ("EG", "EGP"), ("LY", "LYD"),
   ("TN", "TND"), ("DZ", "DZD"), ("MA", "MAD"), ("SD", "SDG"), ("SS", "SSP"), ("ET", "ETB"),
   ("ER", "ERN"), ("DJ", "DJF"), ("SO", "SOS"), ("KE", "KES"), ("UG", "UGX"), ("TZ", "TZS"),
   ("RW", "RWF"), ("BI", "BIF"), ("MG", "MGA"), ("MU", "MUR"), ("SC", "SCR"), ("KM", "KMF"),
   ("MW", "MWK"), ("ZM", "ZMW"), ("ZW", "ZWL"), ("BW", "BWP"), ("NA", "NAD"), ("ZA", "ZAR"),
   ("LS", "LSL"), ("SZ", "SZL"), ("AO", "AOA"), ("MZ", "MZN"), ("CD", "CDF"), ("CG", "XAF"),
   ("CF", "XAF"), ("CM", "XAF"), ("TD", "XAF"), ("GQ", "XAF"), ("GA", "XAF"), ("ST", "STN"),
   ("GH", "GHS"), ("TG", "XOF"), ("BJ", "XOF"), ("NE", "XOF"), ("BF", "XOF"), ("ML", "XOF"),
   ("SN", "XOF"), ("GN", "GNF"), ("SL", "SLL"), ("LR", "LRD"), ("CI", "XOF"), ("GM", "GMD"),
   ("GW", "XOF"), ("CV", "CVE"), ("MR", "MRU"), ("NG", "NGN"), ("AU", "AUD"), ("NZ", "NZD"),
   ("FJ", "FJD"), ("PG", "PGK"), ("SB", "SBD"), ("VU", "VUV"), ("NC", "XPF"), ("PF", "XPF"),
   ("WS", "WST"), ("TO", "TOP"), ("KI", "AUD"), ("TV", "AUD"), ("NR", "AUD"), ("PW", "USD"),
   ("FM", "USD"), ("MH", "USD"), ("GU", "USD"), ("AS", "USD"), ("MP", "USD")]

/-- `d.get(k)` (absent becomes JSON null / Python None). -/
def getN (fs : List (String × JVal)) (k : String) : JVal :=
  (lookupF k fs).getD .null

/-- `_fix_time_str`. -/
def fixTimeStr (val : JVal) : JVal :=
  match val with
  | .str v =>
    let s := pyLower (pyStrip v)
    if s = "" ∨ s = "tbd" ∨ s = "unknown" ∨ s = "n/a" then .null
    else if strStarts "24:" s then .str "23:59:00"
    else .str v
  | _ => val

/-- `_normalize_cost_dict`. -/
def normalizeCostDict (obj : JVal) (default_currency : String) : JVal :=
  match obj with
  | .obj fs =>
    let ccy := getOr fs "currency" (.str default_currency)
    if hasKey "amount" fs then
      let amt := getN fs "amount"
      .obj [("currency", ccy), ("amount_min", amt), ("amount_max", amt),
            ("notes", getN fs "notes")]
    else
      .obj [("currency", ccy), ("amount_min", getN fs "amount_min"),
            ("amount_max", getN fs "amount_max"), ("notes", getN fs "notes")]
  | _ => .null

def JVal.isNull (v : JVal) : Bool :=
  match v with
  | .null => true
  | _ => false

/-- The per-activity cleanup inside `_sanitize_activities`. -/
def sanitizeActivity (default_currency : String) (fs : List (String × JVal)) :
    List (String × JVal) :=
  let a2 := setDefaultF "category" (.str "sightseeing") fs
  let a2 := if (getN a2 "tags").isNull then setF "tags" (.arr []) a2 else a2
  let a2 := if (getN a2 "tips").isNull then setF "tips" (.arr []) a2 else a2
  let a2 := if hasKey "start_time" a2
    then setF "start_time" (fixTimeStr (getN a2 "start_time")) a2 else a2
  let a2 := if hasKey "end_time" a2
    then setF "end_time" (fixTimeStr (getN a2 "end_time")) a2 else a2
  let rawCost := getN a2 "estimated_cost"
  let a2 := removeF "estimated_cost" a2
  let (rawCost, a2) :=
    if rawCost.isNull ∧ hasKey "cost" a2 then (getN a2 "cost", removeF "cost" a2)
    else (rawCost, a2)
  setF "estimated_cost" (normalizeCostDict rawCost default_currency) a2

/-- `_sanitize_activities`: non-lists become `[]`; non-dict entries and
dicts without a "title" key are dropped. -/
def sanitizeActivities (activities : JVal) (default_currency : String) :
    List JVal :=
  match activities with
  | .arr l =>
    l.filterMap fun a =>
      match a with
      | .obj fs => if hasKey "title" fs
          then some (.obj (sanitizeActivity default_currency fs)) else none
      | _ => none
  | _ => []

/-- `_unwrap_root`. -/
def unwrapRoot (candidate : JVal) : JVal :=
  match candidate with
  | .obj [(k, v)] =>
    if k = "itinerary" ∨ k = "plan" ∨ k = "data" ∨ k = "result" then v
    else candidate
  | _ => candidate

/-- `expected_end = req.end_date or (req.start_date +
timedelta(days=(req.duration_days or 1) - 1))`. -/
def expectedEndOf (req : ItineraryRequest) : Date :=
  match req.end_date with
  | some e => e
  | none => req.start_date.addDays ((req.duration_days.getD 1) - 1)

/-- `out["destination"]`. -/
def outDestOf (req : ItineraryRequest) (candidate : JVal) : JVal :=
  match candidate with
  | .obj fs => getOr fs "destination" (.str req.destination)
  | _ => .str req.destination

/-- `out["start_date"]`. -/
def outStartOf (req : ItineraryRequest) (candidate : JVal) : JVal :=
  match candidate with
  | .obj fs => getOr fs "start_date" (.str req.start_date.iso)
  | _ => .str req.start_date.iso

/-- `out["end_date"]`. -/
def outEndOf (req : ItineraryRequest) (candidate : JVal) : JVal :=
  match candidate with
  | .obj fs => getOr fs "end_date" (.str (expectedEndOf req).iso)
  | _ => .str (expectedEndOf req).iso

/-- The `daily_plan` selection: the candidate's "daily_plan" if it is a
list, else its "itinerary" if that is a list, else `[]`. -/
def dailyPlanOf (candidate : JVal) : List JVal :=
  match candidate with
  | .obj fs =>
    match lookupF "daily_plan" fs with
    | some (.arr l) => l
    | _ =>
      match lookupF "itinerary" fs with
      | some (.arr l) => l
      | _ => []
  | _ => []

/-- `CC_TO_CURRENCY.get(cc, "USD")` on `guess_country_code(...) or ""`. -/
def ccyFrom (ccOpt : Option String) : String :=
  (lookupS (ccOpt.getD "") ccToCurrency).getD "USD"

/-- One `clean_days` entry (loop body of the normalizer, dict insertion
order).  `d["date"]`: a truthy model-supplied date short-circuits the
`or`; otherwise `start + timedelta(days=i)` is attempted and any failure
(non-string or unparseable start, overflow past year 9999) falls back to
`out["start_date"]` via the except branch. -/
def cleanDay (outStart : JVal) (local_currency : String) (i : Nat)
    (fs : List (String × JVal)) : JVal :=
  let dv := getN fs "date"
  let dateV := if dv.truthy then dv
    else match outStart with
      | .str s =>
        match parseDate s with
        | some sd =>
          if (sd.addDays i).okRange then .str ((sd.addDays i).iso) else outStart
        | none => outStart
      | _ => outStart
  let acts :=
    let a1 := getN fs "activities"
    if a1.truthy then a1
    else
      let a2 := getN fs "plans"
      if a2.truthy then a2 else .arr []
  .obj [("day_index",
          (let di := getN fs "day_index"
           if di.truthy then di else .num (Dec.ofInt ((i : Int) + 1)))),
        ("date", dateV),
        ("summary", getN fs "summary"),
        ("weather", getN fs "weather"),
        ("activities", .arr (sanitizeActivities acts local_currency)),
        ("notes",
          (let nv := getN fs "notes"
           if nv.truthy then nv else .arr []))]

/-- The `clean_days` loop: non-dict entries are skipped (the enumerate
index still advances). -/
def cleanDaysOf (req : ItineraryRequest) (candidate : JVal)
    (local_currency : String) : List JVal :=
  (dailyPlanOf candidate).enum.filterMap fun p =>
    match p.2 with
    | .obj fs => some (cleanDay (outStartOf req candidate) local_currency p.1 fs)
    | _ => none

/-- `out["total_days"]`: a candidate "total_days" key passes through
verbatim; otherwise `(end - start).days + 1` from the out dates, with
`max(1, len(clean_days))` when either date fails to parse. -/
def totalDaysOf (req : ItineraryRequest) (candidate : JVal)
    (cleanDays : List JVal) : JVal :=
  let fallback : JVal :=
    match outStartOf req candidate, outEndOf req candidate with
    | .str s1, .str s2 =>
      match parseDate s1, parseDate s2 with
      | some sd, some ed => .num (Dec.ofInt (dateDiff ed sd + 1))
      | _, _ => .num (Dec.ofInt (max 1 (cleanDays.length : Int)))
    | _, _ => .num (Dec.ofInt (max 1 (cleanDays.length : Int)))
  match candidate with
  | .obj fs => if hasKey "total_days" fs then getN fs "total_days" else fallback
  | _ => fallback

/-- The final `out` dict for a dict candidate with a truthy "currency"
(insertion order of the source). -/
def normFields (req : ItineraryRequest) (fs : List (String × JVal))
    (injected cleanDays : List JVal) : List (String × JVal) :=
  [("destination", outDestOf req (.obj fs)),
   ("start_date", outStartOf req (.obj fs)),
   ("end_date", outEndOf req (.obj fs)),
   ("daily_plan", .arr injected),
   ("total_days", totalDaysOf req (.obj fs) cleanDays),
   ("timezone", getOr fs "timezone" (.str "GMT")),
   ("currency", getN fs "currency"),
   ("travelers_count", getN fs "travelers_count"),
   ("interests", getOr fs "interests" (.arr [])),
   ("logistics", getN fs "logistics"),
   ("meta", getOr fs "meta" (.obj
     [("schema_version", .str "1.0.0"),
      ("generator", .str "ai_travel_planner@phase1")]))]

/-- `normalize_candidate_for_response`.  `.error` marks an uncaught
exception; in particular `out["currency"] = candidate.get("currency") or
default_currency` (and its non-dict sibling) reads the undefined name
`default_currency` — only a truthy candidate "currency" short-circuits
past the NameError. -/
def normalizeCandidate (req : ItineraryRequest) (raw : JVal)
    (cm : Option (List (Nat × MonthlyClimate))) : Except String JVal := do
  let candidate := unwrapRoot raw
  let ccOpt ← guessCCJ (outDestOf req candidate)
  let cleanDays := cleanDaysOf req candidate (ccyFrom ccOpt)
  let injected ← injectWeather cleanDays cm
  match candidate with
  | .obj fs =>
    if (getN fs "currency").truthy then
      .ok (.obj (normFields req fs injected cleanDays))
    else .error "NameError: name 'default_currency' is not defined"
  | _ => .error "NameError: name 'default_currency' is not defined"

theorem guessCCJ_str (s : String) : guessCCJ (.str s) = .ok (guess_country_code s) := by
  unfold guessCCJ
  by_cases h : (JVal.str s).truthy = true
  · simp [h]
  · have hs : s = "" := by simpa [JVal.truthy] using h
    subst hs
    rfl

theorem injectWeather_nil (cm : Option (List (Nat × MonthlyClimate))) :
    injectWeather [] cm = .ok [] := by
  cases cm with
  | none => rfl
  | some cm0 =>
    by_cases he : cm0.isEmpty <;> simp [injectWeather, he, mapExcept]

/-- C1: the spec says `normalize_candidate_for_response` never raises,
but the assignments `out["currency"] = candidate.get("currency") or
default_currency` (dict case) and `out["currency"] = default_currency`
(non-dict case) read a name `default_currency` that is never defined in
the function (only `local_currency` and `home_currency` are).  Whenever
the unwrapped candidate is not a dict with a truthy "currency" value —
e.g. for a null raw response, for any request and climate map — Python
raises NameError instead of returning a dict. -/
theorem C1_normalize_never_raises (req : ItineraryRequest)
    (cm : Option (List (Nat × MonthlyClimate))) :
    normalizeCandidate req .null cm
      = .error "NameError: name 'default_currency' is not defined" := by
  unfold normalizeCandidate
  simp only [unwrapRoot, outDestOf, guessCCJ_str, cleanDaysOf, dailyPlanOf,
    List.enum_nil, List.filterMap_nil, injectWeather_nil, bind, Except.bind]

/-! ## The post-LLM pipeline of `generate_itinerary` -/

/-- `normalize_candidate_for_response` → `ItineraryResponse.model_validate`
→ the pad/truncate reconciliation (the meta timestamp refresh between the
last two steps touches neither dates, days, nor totals). -/
def pipeline (req : ItineraryRequest) (raw : JVal)
    (cm : Option (List (Nat × MonthlyClimate))) : Except String ItineraryResponse := do
  let cand ← normalizeCandidate req raw cm
  let it ← validateItinerary cand
  .ok (reconcileDays it)

theorem normalize_obj_inv (req : ItineraryRequest) (raw : JVal)
    (cm : Option (List (Nat × MonthlyClimate))) (fs : List (String × JVal))
    (n : JVal) (hraw : unwrapRoot raw = .obj fs)
    (h : normalizeCandidate req raw cm = .ok n) :
    ∃ (ccOpt : Option String) (injected : List JVal),
      guessCCJ (outDestOf req (.obj fs)) = .ok ccOpt ∧
      injectWeather (cleanDaysOf req (.obj fs) (ccyFrom ccOpt)) cm = .ok injected ∧
      (getN fs "currency").truthy = true ∧
      n = .obj (normFields req fs injected
        (cleanDaysOf req (.obj fs) (ccyFrom ccOpt))) := by
  unfold normalizeCandidate at h
  rw [hraw] at h
  rcases hcc : guessCCJ (outDestOf req (.obj fs)) with e | ccOpt
  · simp [hcc, bind, Except.bind] at h
  · simp only [hcc, bind, Except.bind] at h
    rcases hiw : injectWeather (cleanDaysOf req (.obj fs) (ccyFrom ccOpt)) cm
      with e | injected
    · simp [hiw] at h
    · simp only [hiw] at h
      by_cases hcv : (getN fs "currency").truthy
      · simp only [hcv, if_pos, Except.ok.injEq] at h
        exact ⟨ccOpt, injected, rfl, hiw, hcv, h.symm⟩
      · simp [hcv] at h

theorem vDate_inv (fs : List (String × JVal)) (k : String) (d : Date)
    (h : vDate fs k = .ok d) :
    ∃ s, lookupF k fs = some (.str s) ∧ parseDate s = some d := by
  unfold vDate at h
  rcases hl : lookupF k fs with _ | v
  · rw [hl] at h
    simp at h
  · cases v with
    | str s =>
      simp only [hl] at h
      rcases hp : parseDate s with _ | d2
      · simp [hp] at h
      · simp only [hp, Except.ok.injEq] at h
        exact ⟨s, rfl, by rw [hp, h]⟩
    | null => simp [hl] at h
    | bool b => simp [hl] at h
    | num x => simp [hl] at h
    | arr xs => simp [hl] at h
    | obj g => simp [hl] at h

theorem mapExcept_length (f : JVal → Except String α) :
    ∀ (xs : List JVal) (ys : List α), mapExcept f xs = .ok ys →
      ys.length = xs.length := by
  intro xs
  induction xs with
  | nil =>
    intro ys h
    simp only [mapExcept, Except.ok.injEq] at h
    subst h
    rfl
  | cons a xs ih =>
    intro ys h
    rcases ha : f a with e | y
    · simp [mapExcept, ha, bind, Except.bind] at h
    · rcases hxs : mapExcept f xs with e | ys0
      · simp [mapExcept, ha, hxs, bind, Except.bind] at h
      · simp only [mapExcept, ha, hxs, bind, Except.bind, Except.ok.injEq] at h
        subst h
        simp [ih ys0 hxs]

theorem reconcileDays_fields (it : ItineraryResponse) :
    (reconcileDays it).start_date = it.start_date ∧
    (reconcileDays it).end_date = it.end_date ∧
    (reconcileDays it).total_days = it.total_days := by
  unfold reconcileDays
  by_cases h1 : (it.daily_plan.length : Int) < it.total_days
  · simp [h1]
  · by_cases h2 : it.total_days < (it.daily_plan.length : Int) <;> simp [h1, h2]

set_option maxHeartbeats 1000000 in
theorem validateItinerary_inv (fs : List (String × JVal)) (xs : List JVal)
    (it : ItineraryResponse)
    (hdp : lookupF "daily_plan" fs = some (.arr xs))
    (h : validateItinerary (.obj fs) = .ok it) :
    vDate fs "start_date" = .ok it.start_date ∧
    vDate fs "end_date" = .ok it.end_date ∧
    mapExcept validateDayPlan xs = .ok it.daily_plan ∧
    ∃ dd : Dec, lookupF "total_days" fs = some (.num dd) ∧ it.total_days = dd.toInt := by
  unfold validateItinerary at h
  simp only [bind, Except.bind, hdp] at h
  repeat' split at h
  all_goals try exact Except.noConfusion h
  all_goals
    (injection h with h
     subst h
     refine ⟨by assumption, by assumption, by assumption, ?_⟩
     exact ⟨_, by assumption, rfl⟩)

set_option maxHeartbeats 1000000 in
theorem validateDayPlan_inv (g : List (String × JVal)) (day : DayPlan)
    (h : validateDayPlan (.obj g) = .ok day) :
    vDate g "date" = .ok day.date := by
  unfold validateDayPlan at h
  simp only [bind, Except.bind] at h
  repeat' split at h
  all_goals try exact Except.noConfusion h
  all_goals
    (injection h with h
     subst h
     assumption)

theorem Dec.toInt_ofInt (k : Int) : (Dec.ofInt k).toInt = k := by
  show Int.ediv k ((10 : Int) ^ 0) = k
  rw [pow_zero]
  exact Int.ediv_one k

/-- C4 (amended): when the candidate does NOT supply its own
`total_days`, the pipeline result satisfies
`total_days == (end_date - start_date).days + 1`; a candidate
`total_days` key passes through verbatim (C4_counterexample), checked
only for `>= 1` by validation and never reconciled against the dates. -/
theorem C4_total_days (req : ItineraryRequest) (raw : JVal)
    (cm : Option (List (Nat × MonthlyClimate))) (fs : List (String × JVal))
    (it : ItineraryResponse)
    (hraw : unwrapRoot raw = .obj fs)
    (htd : hasKey "total_days" fs = false)
    (hpip : pipeline req raw cm = .ok it) :
    it.total_days = dateDiff it.end_date it.start_date + 1 := by
  rcases hn : normalizeCandidate req raw cm with e | n
  · simp [pipeline, hn, bind, Except.bind] at hpip
  obtain ⟨ccOpt, injected, hcc, hiw, hcv, hnEq⟩ :=
    normalize_obj_inv req raw cm fs n hraw hn
  subst hnEq
  have hdp : lookupF "daily_plan"
      (normFields req fs injected (cleanDaysOf req (.obj fs) (ccyFrom ccOpt)))
      = some (.arr injected) := rfl
  rcases hv : validateItinerary (.obj (normFields req fs injected
      (cleanDaysOf req (.obj fs) (ccyFrom ccOpt)))) with e | it0
  · simp [pipeline, hn, hv, bind, Except.bind] at hpip
  have hit : it = reconcileDays it0 := by
    simp only [pipeline, hn, hv, bind, Except.bind, Except.ok.injEq] at hpip
    exact hpip.symm
  obtain ⟨hsd, hed, hdpv, dd, hdd, htdv⟩ :=
    validateItinerary_inv _ injected it0 hdp hv
  obtain ⟨s1, hls1, hps1⟩ := vDate_inv _ _ _ hsd
  obtain ⟨s2, hls2, hps2⟩ := vDate_inv _ _ _ hed
  have ho1 : outStartOf req (.obj fs) = .str s1 := by
    have hx : lookupF "start_date"
        (normFields req fs injected (cleanDaysOf req (.obj fs) (ccyFrom ccOpt)))
        = some (outStartOf req (.obj fs)) := rfl
    rw [hx] at hls1
    injection hls1
  have ho2 : outEndOf req (.obj fs) = .str s2 := by
    have hx : lookupF "end_date"
        (normFields req fs injected (cleanDaysOf req (.obj fs) (ccyFrom ccOpt)))
        = some (outEndOf req (.obj fs)) := rfl
    rw [hx] at hls2
    injection hls2
  have htv : totalDaysOf req (.obj fs) (cleanDaysOf req (.obj fs) (ccyFrom ccOpt))
      = .num dd := by
    have hx : lookupF "total_days"
        (normFields req fs injected (cleanDaysOf req (.obj fs) (ccyFrom ccOpt)))
        = some (totalDaysOf req (.obj fs) (cleanDaysOf req (.obj fs) (ccyFrom ccOpt))) := rfl
    rw [hx] at hdd
    injection hdd
  have hcompute : totalDaysOf req (.obj fs) (cleanDaysOf req (.obj fs) (ccyFrom ccOpt))
      = .num (Dec.ofInt (dateDiff it0.end_date it0.start_date + 1)) := by
    unfold totalDaysOf
    simp only [htd, Bool.false_eq_true, if_false, ho1, ho2, hps1, hps2]
  rw [hcompute] at htv
  injection htv with htv
  obtain ⟨hf1, hf2, hf3⟩ := reconcileDays_fields it0
  rw [hit, hf1, hf2, hf3, htdv, ← htv, Dec.toInt_ofInt]

theorem filterMap_enumFrom_obj (F : Nat → List (String × JVal) → JVal) :
    ∀ (dl : List JVal) (n : Nat), (∀ d ∈ dl, ∃ g, d = .obj g) →
      (((List.enumFrom n dl).filterMap fun p =>
          match p.2 with
          | .obj fs => some (F p.1 fs)
          | _ => none).length = dl.length ∧
       ∀ i g, dl.get? i = some (.obj g) →
        ((List.enumFrom n dl).filterMap fun p =>
          match p.2 with
          | .obj fs => some (F p.1 fs)
          | _ => none).get? i = some (F (n + i) g)) := by
  intro dl
  induction dl with
  | nil =>
    intro n hall
    refine ⟨rfl, ?_⟩
    intro i g hg
    simp at hg
  | cons d rest ih =>
    intro n hall
    obtain ⟨g0, hg0⟩ := hall d (List.mem_cons_self _ _)
    subst hg0
    obtain ⟨ihlen, ihget⟩ := ih (n + 1) (fun x hx => hall x (List.mem_cons_of_mem _ hx))
    constructor
    · simp only [List.enumFrom, List.filterMap_cons, List.length_cons]
      rw [ihlen]
    · intro i g hg
      cases i with
      | zero =>
        simp only [List.get?_cons_zero, Option.some.injEq, JVal.obj.injEq] at hg
        subst hg
        simp only [List.enumFrom, List.filterMap_cons, List.get?_cons_zero,
          Nat.add_zero]
      | succ i =>
        rw [List.get?_cons_succ] at hg
        simp only [List.enumFrom, List.filterMap_cons, List.get?_cons_succ]
        rw [ihget i g hg]
        congr 2
        omega

theorem injectOneDay_obj_date (cm0 : List (Nat × MonthlyClimate)) (d' : JVal)
    (g : List (String × JVal)) (h : injectOneDay cm0 (.obj g) = .ok d') :
    ∃ g', d' = .obj g' ∧ lookupF "date" g' = lookupF "date" g := by
  simp only [injectOneDay] at h
  rcases hd : lookupF "date" g with _ | v
  · simp only [hd, Except.ok.injEq] at h
    exact ⟨g, h.symm, hd⟩
  · cases v with
    | str s =>
      rcases hp : parseDate s with _ | dt
      · simp only [hd, hp, Except.ok.injEq] at h
        exact ⟨g, h.symm, hd⟩
      · rcases hm : lookupMonth dt.month cm0 with _ | mc
        · simp only [hd, hp, hm, Except.ok.injEq] at h
          exact ⟨g, h.symm, hd⟩
        · rcases hi : injectDay mc dt g with e | g2
          · simp [hd, hp, hm, hi, Except.map] at h
          · simp only [hd, hp, hm, hi, Except.map, Except.ok.injEq] at h
            obtain ⟨_, hpres⟩ := injectDay_ok _ _ _ _ hi
            exact ⟨g2, h.symm, (hpres "date" (by decide) (by decide)).trans hd⟩
    | null =>
      simp only [hd, Except.ok.injEq] at h
      exact ⟨g, h.symm, hd⟩
    | bool b =>
      simp only [hd, Except.ok.injEq] at h
      exact ⟨g, h.symm, hd⟩
    | num x =>
      simp only [hd, Except.ok.injEq] at h
      exact ⟨g, h.symm, hd⟩
    | arr xs =>
      simp only [hd, Except.ok.injEq] at h
      exact ⟨g, h.symm, hd⟩
    | obj gs =>
      simp only [hd, Except.ok.injEq] at h
      exact ⟨g, h.symm, hd⟩

theorem injectWeather_obj (days : List JVal)
    (cm : Option (List (Nat × MonthlyClimate))) (out : List JVal)
    (h : injectWeather days cm = .ok out) :
    out.length = days.length ∧
    ∀ i g, days.get? i = some (.obj g) →
      ∃ g', out.get? i = some (.obj g') ∧ lookupF "date" g' = lookupF "date" g := by
  cases cm with
  | none =>
    simp only [injectWeather, Except.ok.injEq] at h
    subst h
    exact ⟨rfl, fun i g hg => ⟨g, hg, rfl⟩⟩
  | some cm0 =>
    by_cases he : cm0.isEmpty
    · simp only [injectWeather, he, if_pos, Except.ok.injEq] at h
      subst h
      exact ⟨rfl, fun i g hg => ⟨g, hg, rfl⟩⟩
    · simp only [injectWeather, he, Bool.false_eq_true, if_false] at h
      refine ⟨mapExcept_length _ _ _ h, ?_⟩
      intro i g hg
      obtain ⟨y, hy, hone⟩ := mapExcept_get _ _ _ h i _ hg
      obtain ⟨g', hg', hdate⟩ := injectOneDay_obj_date cm0 y g hone
      exact ⟨g', hg' ▸ hy, hdate⟩

theorem cleanDay_date (outStart : JVal) (ccy : String) (i : Nat)
    (g : List (String × JVal)) (hdv : (getN g "date").truthy = false)
    (s : Date) (hos : outStart = .str s.iso) (hok : s.okRange = true)
    (hrange : (s.addDays i).okRange = true) :
    ∃ L, cleanDay outStart ccy i g = .obj L ∧
      lookupF "date" L = some (.str ((s.addDays i).iso)) := by
  subst hos
  unfold cleanDay
  refine ⟨_, rfl, ?_⟩
  simp only [lookupF, hdv, Bool.false_eq_true, if_false, parse_iso s hok, hrange,
    if_pos, if_true]
  rfl

theorem reconcileDays_dates (it : ItineraryResponse)
    (hd : ∀ i d, it.daily_plan.get? i = some d → d.date = it.start_date.addDays i) :
    ∀ i d, (reconcileDays it).daily_plan.get? i = some d →
      d.date = it.start_date.addDays i := by
  intro i d hget
  rcases lt_trichotomy ((it.daily_plan.length : Int)) it.total_days with hlt | heq | hgt
  · have hrec : reconcileDays it = { it with daily_plan := it.daily_plan ++
        ((List.range (it.total_days - it.daily_plan.length).toNat).map fun (j : Nat) =>
          (⟨(j : Int) + 1 + it.daily_plan.length,
            it.start_date.addDays (it.daily_plan.length + j),
            none, none, [], []⟩ : DayPlan)) } := by
      unfold reconcileDays
      rw [if_pos hlt]
    rw [hrec] at hget
    by_cases hi : i < it.daily_plan.length
    · rw [List.get?_append hi] at hget
      exact hd i d hget
    · push_neg at hi
      rw [List.get?_append_right hi] at hget
      have hb : i - it.daily_plan.length
          < (it.total_days - it.daily_plan.length).toNat := by
        obtain ⟨hb0, _⟩ := List.get?_eq_some.1 hget
        simpa using hb0
      rw [List.get?_map, List.get?_range hb] at hget
      simp only [Option.map_some', Option.some.injEq] at hget
      rw [← hget]
      show it.start_date.addDays ((it.daily_plan.length : Int) + ((i - it.daily_plan.length : Nat) : Int))
        = it.start_date.addDays i
      unfold Date.addDays
      congr 1
      omega
  · have hrec : reconcileDays it = it := by
      unfold reconcileDays
      rw [if_neg (by omega), if_neg (by omega)]
    rw [hrec] at hget
    exact hd i d hget
  · have hrec : reconcileDays it = { it with
        daily_plan := it.daily_plan.take it.total_days.toNat } := by
      unfold reconcileDays
      rw [if_neg (by omega), if_pos (by omega)]
    rw [hrec] at hget
    have hb : i < it.total_days.toNat := by
      obtain ⟨hb0, _⟩ := List.get?_eq_some.1 hget
      simp only [List.length_take] at hb0
      omega
    rw [List.get?_take hb] at hget
    exact hd i d hget

/-- C3 (amended): the per-day date invariant `daily_plan[i].date ==
start_date + i` holds when the model response does not supply its own
truthy per-day dates (and no candidate-level start_date overrides the
request): derived dates and reconciliation pads follow `start + i`, but
a truthy model-supplied date string is carried through normalization and
validation verbatim (C3_counterexample), so the invariant fails exactly
there. -/
theorem C3_daily_dates (req : ItineraryRequest) (raw : JVal)
    (cm : Option (List (Nat × MonthlyClimate))) (fs : List (String × JVal))
    (dl : List JVal) (it : ItineraryResponse)
    (hraw : unwrapRoot raw = .obj fs)
    (hsd0 : lookupF "start_date" fs = none)
    (hdl : lookupF "daily_plan" fs = some (.arr dl))
    (hdays : ∀ d ∈ dl, ∃ g, d = .obj g ∧ (getN g "date").truthy = false)
    (hok : req.start_date.okRange = true)
    (hrange : ∀ i : Nat, i < dl.length → (req.start_date.addDays i).okRange = true)
    (hpip : pipeline req raw cm = .ok it) :
    it.start_date = req.start_date ∧
    ∀ i d, it.daily_plan.get? i = some d → d.date = req.start_date.addDays i := by
  rcases hn : normalizeCandidate req raw cm with e | n
  · simp [pipeline, hn, bind, Except.bind] at hpip
  obtain ⟨ccOpt, injected, hcc, hiw, hcv, hnEq⟩ :=
    normalize_obj_inv req raw cm fs n hraw hn
  subst hnEq
  have hdp : lookupF "daily_plan"
      (normFields req fs injected (cleanDaysOf req (.obj fs) (ccyFrom ccOpt)))
      = some (.arr injected) := rfl
  rcases hv : validateItinerary (.obj (normFields req fs injected
      (cleanDaysOf req (.obj fs) (ccyFrom ccOpt)))) with e | it0
  · simp [pipeline, hn, hv, bind, Except.bind] at hpip
  have hit : it = reconcileDays it0 := by
    simp only [pipeline, hn, hv, bind, Except.bind, Except.ok.injEq] at hpip
    exact hpip.symm
  obtain ⟨hsd, hed, hdpv, dd, hdd, htdv⟩ :=
    validateItinerary_inv _ injected it0 hdp hv
  have hos : outStartOf req (.obj fs) = .str req.start_date.iso := by
    simp [outStartOf, getOr, hsd0]
  obtain ⟨s1, hls1, hps1⟩ := vDate_inv _ _ _ hsd
  have hx1 : lookupF "start_date"
      (normFields req fs injected (cleanDaysOf req (.obj fs) (ccyFrom ccOpt)))
      = some (outStartOf req (.obj fs)) := rfl
  rw [hx1, hos] at hls1
  have hs1 : s1 = req.start_date.iso := by
    injection hls1 with h1
    injection h1 with h2
    exact h2.symm
  have hstart : it0.start_date = req.start_date := by
    rw [hs1, parse_iso req.start_date hok] at hps1
    injection hps1 with h2
    exact h2.symm
  have hdlsel : dailyPlanOf (.obj fs) = dl := by simp [dailyPlanOf, hdl]
  have hall : ∀ d ∈ dl, ∃ g, d = .obj g := fun d hdm =>
    ⟨(hdays d hdm).choose, (hdays d hdm).choose_spec.1⟩
  have hcd : cleanDaysOf req (.obj fs) (ccyFrom ccOpt)
      = (List.enumFrom 0 dl).filterMap fun p =>
          match p.2 with
          | .obj g => some (cleanDay (outStartOf req (.obj fs)) (ccyFrom ccOpt) p.1 g)
          | _ => none := by
    unfold cleanDaysOf
    rw [hdlsel]
    rfl
  obtain ⟨hcdlen, hcdget⟩ := filterMap_enumFrom_obj
    (fun i g => cleanDay (outStartOf req (.obj fs)) (ccyFrom ccOpt) i g) dl 0 hall
  have hcdl : (cleanDaysOf req (.obj fs) (ccyFrom ccOpt)).length = dl.length := by
    rw [hcd]
    exact hcdlen
  obtain ⟨hinjlen, hinjget⟩ := injectWeather_obj _ _ _ hiw
  have hleninj : it0.daily_plan.length = injected.length := mapExcept_length _ _ _ hdpv
  have hdates0 : ∀ i d, it0.daily_plan.get? i = some d →
      d.date = req.start_date.addDays i := by
    intro i d hgd
    obtain ⟨hilen, -⟩ := List.get?_eq_some.1 hgd
    have hidl : i < dl.length := by
      rw [hleninj, hinjlen, hcdl] at hilen
      exact hilen
    obtain ⟨g, hdli2, hdv⟩ : ∃ g, dl.get? i = some (.obj g) ∧
        (getN g "date").truthy = false := by
      rcases hgi : dl.get? i with _ | d0
      · rw [List.get?_eq_none] at hgi
        omega
      · obtain ⟨g, hg, hdvx⟩ := hdays d0 (List.get?_mem hgi)
        exact ⟨g, by rw [hg], hdvx⟩
    have hcdi : (cleanDaysOf req (.obj fs) (ccyFrom ccOpt)).get? i
        = some (cleanDay (outStartOf req (.obj fs)) (ccyFrom ccOpt) i g) := by
      rw [hcd]
      simpa using hcdget i g hdli2
    obtain ⟨L, hcl, hdL⟩ := cleanDay_date (outStartOf req (.obj fs)) (ccyFrom ccOpt)
      i g hdv req.start_date hos hok (hrange i hidl)
    rw [hcl] at hcdi
    obtain ⟨g2, hg2, hdg2⟩ := hinjget i L hcdi
    obtain ⟨y, hy, hval⟩ := mapExcept_get _ _ _ hdpv i _ hg2
    have hyd : y = d := by
      rw [hgd] at hy
      injection hy with h4
      exact h4.symm
    subst hyd
    obtain ⟨s2, hls2, hps2⟩ := vDate_inv _ _ _ (validateDayPlan_inv _ _ hval)
    rw [hdg2, hdL] at hls2
    have hs2 : s2 = (req.start_date.addDays i).iso := by
      injection hls2 with h1
      injection h1 with h2
      exact h2.symm
    rw [hs2, parse_iso _ (hrange i hidl)] at hps2
    injection hps2 with h3
    exact h3.symm
  constructor
  · rw [hit, (reconcileDays_fields it0).1, hstart]
  · rw [hit]
    intro i d hg
    have hres := reconcileDays_dates it0
      (by intro j dj hj; rw [hstart]; exact hdates0 j dj hj) i d hg
    rw [hstart] at hres
    exact hres

def lisbonReq : ItineraryRequest := ⟨"Lisbon", ⟨2025, 6, 1⟩, some ⟨2025, 6, 2⟩, none, none⟩

def mkDay (idx : Int) (dt : Date) (sm : Option String) : DayPlan :=
  ⟨idx, dt, sm, none, [], []⟩

def stdMeta : Meta := ⟨"1.0.0", none, "ai_travel_planner@phase1"⟩

/-- A 2-day Lisbon response whose model-supplied day 1 carries the
inconsistent date 2025-06-05. -/
def c3Raw : JVal := .obj [("currency", .str "EUR"),
  ("daily_plan", .arr [.obj [("date", .str "2025-06-05")]])]

def c3It : ItineraryResponse :=
  ⟨"Lisbon", ⟨2025, 6, 1⟩, ⟨2025, 6, 2⟩, 2, some "GMT", "EUR", none, [],
   [mkDay 1 ⟨2025, 6, 5⟩ none, mkDay 2 ⟨2025, 6, 2⟩ none], stdMeta⟩

/-- C3 (counterexample): the pipeline keeps the model-supplied day date
2025-06-05 verbatim, so daily_plan[0].date ≠ start_date + 0. -/
theorem C3_counterexample :
    pipeline lisbonReq c3Raw none = Except.ok c3It ∧
    (c3It.daily_plan.map fun d => d.date) = [⟨2025, 6, 5⟩, ⟨2025, 6, 2⟩] ∧
    c3It.start_date.addDays 0 = ⟨2025, 6, 1⟩ ∧
    (⟨2025, 6, 5⟩ : Date) ≠ ⟨2025, 6, 1⟩ :=
  ⟨rfl, rfl, rfl, by decide⟩

def c3WRaw : JVal := .obj [("currency", .str "EUR"),
  ("daily_plan", .arr [.obj [("summary", .str "stroll")]])]

def c3WIt : ItineraryResponse :=
  ⟨"Lisbon", ⟨2025, 6, 1⟩, ⟨2025, 6, 2⟩, 2, some "GMT", "EUR", none, [],
   [mkDay 1 ⟨2025, 6, 1⟩ (some "stroll"), mkDay 2 ⟨2025, 6, 2⟩ none], stdMeta⟩

theorem C3_daily_dates_witness :
    c3WIt.start_date = lisbonReq.start_date ∧
    ∀ i d, c3WIt.daily_plan.get? i = some d →
      d.date = lisbonReq.start_date.addDays i :=
  C3_daily_dates lisbonReq c3WRaw none
    [("currency", .str "EUR"),
     ("daily_plan", .arr [.obj [("summary", .str "stroll")]])]
    [.obj [("summary", .str "stroll")]] c3WIt (by rfl) (by rfl) (by rfl)
    (by
      intro d hd
      simp only [List.mem_singleton] at hd
      subst hd
      exact ⟨[("summary", .str "stroll")], rfl, by decide⟩)
    (by decide) (by decide) (by rfl)

/-- A response that claims total_days = 5 over a 2-day date range. -/
def c4Raw : JVal := .obj [("currency", .str "EUR"),
  ("total_days", .num (Dec.ofInt 5))]

def c4It : ItineraryResponse :=
  ⟨"Lisbon", ⟨2025, 6, 1⟩, ⟨2025, 6, 2⟩, 5, some "GMT", "EUR", none, [],
   [mkDay 1 ⟨2025, 6, 1⟩ none, mkDay 2 ⟨2025, 6, 2⟩ none,
    mkDay 3 ⟨2025, 6, 3⟩ none, mkDay 4 ⟨2025, 6, 4⟩ none,
    mkDay 5 ⟨2025, 6, 5⟩ none], stdMeta⟩

/-- C4 (counterexample): a model-supplied total_days of 5 survives the
whole pipeline although end_date − start_date + 1 = 2; reconciliation
even pads the day list out to the wrong count. -/
theorem C4_counterexample :
    pipeline lisbonReq c4Raw none = Except.ok c4It ∧
    c4It.total_days = 5 ∧
    dateDiff c4It.end_date c4It.start_date + 1 = 2 :=
  ⟨rfl, rfl, rfl⟩

def c4WRaw : JVal := .obj [("currency", .str "EUR")]

def c4WIt : ItineraryResponse :=
  ⟨"Lisbon", ⟨2025, 6, 1⟩, ⟨2025, 6, 2⟩, 2, some "GMT", "EUR", none, [],
   [mkDay 1 ⟨2025, 6, 1⟩ none, mkDay 2 ⟨2025, 6, 2⟩ none], stdMeta⟩

theorem C4_total_days_witness :
    c4WIt.total_days = dateDiff c4WIt.end_date c4WIt.start_date + 1 :=
  C4_total_days lisbonReq c4WRaw none [("currency", .str "EUR")] c4WIt
    (by rfl) (by rfl) (by rfl)

end ItinSpec
